import Mathlib

/-!
# Verification of the Telegram membership backend

A shallow embedding of the membership/invite/reconciliation core of the
`tg-mono-repo` backend (`src/backend/app/`): the timezone utilities, the
service layer (`service.py`), the webhook event handlers
(`api/endpoints/telegram.py`) and the reconciliation scheduler
(`scheduler.py`), together with proofs of the behavioural claims made by
the specification.

Conventions of the embedding:
* UTC datetimes are modelled as seconds since the Unix epoch; the current
  time is a `Nat`, computed timestamps are `Int` (day arithmetic can go
  below the current day).  `d.date()` on a timestamp is floor division by
  86400, its time of day is the remainder.
* MongoDB collections are lists of documents in insertion order;
  `find_one` is `List.find?` (first match in natural order), `update_one`
  rewrites the first matching document, `insert_one` appends.
* Remote Telegram Bot API calls either raise or succeed
  (`bot_api._make_request` raises on every failure mode); their outcomes
  are supplied by explicit oracle parameters, so that a theorem can
  quantify over remote behaviour.
-/

namespace TgMono

/-! ## Timezone utilities (`app/timezone_utils.py`) -/

/-- Number of seconds in one day. -/
def secondsPerDay : Int := 86400

/-- `get_utc_end_of_day(days_from_now)` from `timezone_utils.py`:
`datetime.combine(now.date() + timedelta(days=days_from_now), time(23,59,59))`,
i.e. 23:59:59 UTC of the day `days_from_now` days from today.
`now` is the current UTC time in seconds since the epoch. -/
def get_utc_end_of_day (now : Nat) (days_from_now : Int) : Int :=
  (((now / 86400 : Nat) : Int) + days_from_now) * secondsPerDay + 86399

/-- `get_period_end(period_days)` from `timezone_utils.py`: exactly
`get_utc_end_of_day(period_days - 1)`, with no validation of
`period_days`. -/
def get_period_end (now : Nat) (period_days : Int) : Int :=
  get_utc_end_of_day now (period_days - 1)

/-- The Pydantic boundary validation of `GrantAccessRequest.period_days`
(`Field(..., gt=0)` in `api/endpoints/telegram.py`). -/
def grantAccessRequestPeriodDaysValid (period_days : Int) : Bool :=
  period_days > 0

/-! ## Data model (`app/models/telegram.py`)

Documents carry only the fields the core logic reads or writes; `_id`
values are natural numbers handed out by an insertion counter. -/

/-- `Membership.status` (`Literal["active", "cancelled", "expired"]`). -/
inductive MStatus
  | active
  | cancelled
  | expired
deriving Repr, DecidableEq

/-- A document of the `users` collection (`TelegramUser`). -/
structure UserDoc where
  id : Nat
  ext_user_id : String
  telegram_user_id : Option Int
  telegram_username : Option String
  created_at : Nat
  updated_at : Nat
deriving Repr, DecidableEq

/-- A document of the `channels` collection (`Channel`). -/
structure ChannelDoc where
  chat_id : Int
  name : String
  join_model : String
  invite_ttl_seconds : Option Nat
  invite_member_limit : Option Nat
deriving Repr, DecidableEq

/-- A document of the `memberships` collection (`Membership`). -/
structure MembershipDoc where
  id : Nat
  user_id : Nat
  chat_id : Int
  status : MStatus
  current_period_end : Int
  created_at : Nat
  updated_at : Nat
deriving Repr, DecidableEq

/-- A document of the `invites` collection (`Invite`). -/
structure InviteDoc where
  id : Nat
  user_id : Nat
  chat_id : Int
  invite_link : String
  expire_at : Int
  member_limit : Nat
  used : Bool
  revoked : Bool
  used_by_telegram_user_id : Option Int
  created_at : Nat
deriving Repr, DecidableEq

/-- A document of the `audits` collection (`Audit`).  `meta_reason` is the
`"reason"` tag of the free-form `meta` dictionary when one is written. -/
structure AuditDoc where
  action : String
  user_id : Option Nat := none
  telegram_user_id : Option Int := none
  chat_id : Option Int := none
  ref : Option String := none
  meta_reason : Option String := none
deriving Repr, DecidableEq

/-- One outbound Telegram Bot API call, as issued by the service layer
(`bot_api.py` methods).  Recording the calls lets theorems talk about
which remote commands a flow issued and in which order. -/
inductive RemoteCall
  | createChatInviteLink (chat : Int) (expire : Int) (member_limit : Nat)
  | revokeChatInviteLink (chat : Int) (link : String)
  | approveChatJoinRequest (chat : Int) (tg : Int)
  | declineChatJoinRequest (chat : Int) (tg : Int)
  | banChatMember (chat : Int) (tg : Int)
  | unbanChatMember (chat : Int) (tg : Int) (only_if_banned : Bool)
deriving Repr, DecidableEq

/-- The whole persistent world: the five MongoDB collections in insertion
order, the scheduler watermark document, an `_id` counter, and the log of
remote Bot API calls issued so far. -/
structure St where
  users : List UserDoc := []
  channels : List ChannelDoc := []
  memberships : List MembershipDoc := []
  invites : List InviteDoc := []
  audits : List AuditDoc := []
  scheduler_last_run : Option Nat := none
  next_id : Nat := 0
  calls : List RemoteCall := []
deriving Repr, DecidableEq

/-- The outcome of `bot.create_chat_invite_link` as seen by
`service.create_invite_link`: the HTTP call raised, returned a payload
without an `invite_link`, or returned a link. -/
inductive CreateInviteOutcome
  | raised
  | noLink
  | ok (link : String)
deriving Repr, DecidableEq

/-- The environment: configuration defaults (`config/settings.py`) and
the behaviour of the remote Telegram Bot API.  Every `bot_api.py` method
either raises or succeeds (`_make_request` raises on every failure mode),
so each remote operation is an oracle keyed by its arguments. -/
structure Env where
  invite_ttl_default : Nat
  invite_limit_default : Nat
  createInvite : Int → CreateInviteOutcome
  revokeRaises : Int → String → Bool
  approveRaises : Int → Int → Bool
  declineRaises : Int → Int → Bool
  banOk : Int → Int → Bool
  unbanResult : Int → Int → Option Bool

/-- `update_one`: rewrite the first document matching `p` with `f`. -/
def updateFirst {α : Type} (p : α → Bool) (f : α → α) : List α → List α
  | [] => []
  | x :: xs => if p x then f x :: xs else x :: updateFirst p f xs

/-- Append an audit entry (`service.log_audit` / `insert_one`). -/
def log_audit (st : St) (a : AuditDoc) : St :=
  { st with audits := st.audits ++ [a] }

/-- Record an outbound Bot API call. -/
def recordCall (st : St) (c : RemoteCall) : St :=
  { st with calls := st.calls ++ [c] }

/-! ## Service layer (`app/service.py`) -/

/-- `service.upsert_user`: find by `ext_user_id`; if found refresh
`updated_at` and return the (refreshed) document, else insert a new user
and write a `CREATE_USER` audit entry.  The operation has no failure
path. -/
def upsert_user (now : Nat) (st : St) (ext : String) : St × UserDoc :=
  match st.users.find? (fun u => u.ext_user_id == ext) with
  | some u =>
      ({ st with
          users := updateFirst (fun v => v.id == u.id)
            (fun v => { v with updated_at := now }) st.users },
        { u with updated_at := now })
  | none =>
      let u : UserDoc :=
        { id := st.next_id, ext_user_id := ext, telegram_user_id := none,
          telegram_username := none, created_at := now, updated_at := now }
      (log_audit { st with users := st.users ++ [u], next_id := st.next_id + 1 }
        { action := "CREATE_USER", user_id := some u.id },
        u)

/-- Python truthiness of the optional `telegram_username` argument
(`if telegram_username:`): present and non-empty. -/
def usernameTruthy : Option String → Bool
  | some s => s != ""
  | none => false

/-- The update `link_telegram_user` applies to the user document. -/
def linkUpd (now : Nat) (tg : Int) (username : Option String) :
    UserDoc → UserDoc := fun v =>
  { v with telegram_user_id := some tg,
           telegram_username :=
             if usernameTruthy username then username else v.telegram_username,
           updated_at := now }

/-- `service.link_telegram_user`: find by `ext_user_id` (`None` when
missing); set `telegram_user_id`, set `telegram_username` only when the
argument is truthy, write a `LINK_TELEGRAM_USER` audit entry, and return
the updated document. -/
def link_telegram_user (now : Nat) (st : St) (ext : String) (tg : Int)
    (username : Option String) : St × Option UserDoc :=
  match st.users.find? (fun u => u.ext_user_id == ext) with
  | none => (st, none)
  | some u =>
      let st := { st with
        users := updateFirst (fun v => v.id == u.id)
          (linkUpd now tg username) st.users }
      (log_audit st
        { action := "LINK_TELEGRAM_USER", user_id := some u.id,
          telegram_user_id := some tg },
        some (linkUpd now tg username u))

/-- `service.get_user_by_telegram_id`. -/
def get_user_by_telegram_id (st : St) (tg : Int) : Option UserDoc :=
  st.users.find? (fun u => u.telegram_user_id == some tg)

/-- `service.get_channel`. -/
def get_channel (st : St) (chat : Int) : Option ChannelDoc :=
  st.channels.find? (fun c => c.chat_id == chat)

/-- `service.upsert_membership`: overwrite `status`/`current_period_end`
in place when a row for `(user_id, chat_id)` exists (audit
`UPDATE_MEMBERSHIP`), else insert (audit `CREATE_MEMBERSHIP`). -/
def upsert_membership (now : Nat) (st : St) (uid : Nat) (chat : Int)
    (period_end : Int) (status : MStatus) : St × MembershipDoc :=
  match st.memberships.find? (fun m => m.user_id == uid && m.chat_id == chat) with
  | some m =>
      let st :=
        { st with
            memberships := updateFirst (fun v => v.id == m.id)
              (fun v => { v with status := status, current_period_end := period_end,
                                 updated_at := now }) st.memberships }
      (log_audit st
        { action := "UPDATE_MEMBERSHIP", user_id := some uid, chat_id := some chat },
        { m with status := status, current_period_end := period_end, updated_at := now })
  | none =>
      let m : MembershipDoc :=
        { id := st.next_id, user_id := uid, chat_id := chat, status := status,
          current_period_end := period_end, created_at := now, updated_at := now }
      (log_audit { st with memberships := st.memberships ++ [m], next_id := st.next_id + 1 }
        { action := "CREATE_MEMBERSHIP", user_id := some uid, chat_id := some chat },
        m)

/-- `service.get_active_membership`: first row with the pair and
`status == "active"`. -/
def get_active_membership (st : St) (uid : Nat) (chat : Int) : Option MembershipDoc :=
  st.memberships.find?
    (fun m => m.user_id == uid && m.chat_id == chat && m.status == MStatus.active)

/-- `service.find_expired_memberships`: all rows with `status == "active"`
and `current_period_end <= cutoff`. -/
def find_expired_memberships (st : St) (cutoff : Nat) : List MembershipDoc :=
  st.memberships.filter
    (fun m => m.status == MStatus.active && decide (m.current_period_end ≤ (cutoff : Int)))

/-- `service.expire_membership`: set `status = "expired"` on the row with
the given `_id`; no audit entry. -/
def expire_membership (now : Nat) (st : St) (mid : Nat) : St :=
  { st with
      memberships := updateFirst (fun m => m.id == mid)
        (fun m => { m with status := MStatus.expired, updated_at := now }) st.memberships }

/-- `service.mark_invite_used`: set `used = true` on the first invite with
the given `(invite_link, chat_id)`, and write an `INVITE_USED` audit
entry.  (The code does not set `used_by_telegram_user_id`.) -/
def mark_invite_used (now : Nat) (st : St) (link : String) (chat : Int) (tg : Int) : St :=
  let st :=
    { st with
        invites := updateFirst (fun i => i.invite_link == link && i.chat_id == chat)
          (fun i => { i with used := true }) st.invites }
  log_audit st
    { action := "INVITE_USED", telegram_user_id := some tg, chat_id := some chat }

/-- `service.ban_member`: issue the remote ban; on success write a
`BAN_MEMBER` audit entry and return `true`, on a raised remote error
write a `BAN_MEMBER_ERROR` audit entry and return `false`. -/
def ban_member (env : Env) (st : St) (chat : Int) (tg : Int) : St × Bool :=
  let st := recordCall st (RemoteCall.banChatMember chat tg)
  if env.banOk chat tg then
    (log_audit st
      { action := "BAN_MEMBER", telegram_user_id := some tg, chat_id := some chat },
      true)
  else
    (log_audit st
      { action := "BAN_MEMBER_ERROR", telegram_user_id := some tg, chat_id := some chat },
      false)

/-- `service.unban_member`: issue the remote unban with
`only_if_banned=True`; write an `UNBAN_MEMBER` audit entry and return the
remote result on success, or an `UNBAN_MEMBER_ERROR` audit entry and
`false` when the remote call raised.  It never propagates an error. -/
def unban_member (env : Env) (st : St) (chat : Int) (tg : Int) : St × Bool :=
  let st := recordCall st (RemoteCall.unbanChatMember chat tg true)
  match env.unbanResult chat tg with
  | some ok =>
      (log_audit st
        { action := "UNBAN_MEMBER", telegram_user_id := some tg, chat_id := some chat },
        ok)
  | none =>
      (log_audit st
        { action := "UNBAN_MEMBER_ERROR", telegram_user_id := some tg, chat_id := some chat },
        false)

/-- `service.create_invite_link`: resolve the channel (argument or
lookup), compute `expire_at = now + ttl` and the member cap from channel
overrides or config defaults, issue the remote call; on a raised remote
error write `CREATE_INVITE_ERROR` and return `none`; on a payload without
a link return `none` with no audit; on success persist the invite and
write `CREATE_INVITE`. -/
def create_invite_link (env : Env) (now : Nat) (st : St) (uid : Nat) (chat : Int)
    (channelArg : Option ChannelDoc) : St × Option InviteDoc :=
  let channel := match channelArg with
    | some c => some c
    | none => get_channel st chat
  match channel with
  | none => (st, none)
  | some ch =>
      let ttl := ch.invite_ttl_seconds.getD env.invite_ttl_default
      let limit := ch.invite_member_limit.getD env.invite_limit_default
      let expire_at : Int := (now : Int) + (ttl : Int)
      let st := recordCall st (RemoteCall.createChatInviteLink chat expire_at limit)
      match env.createInvite chat with
      | CreateInviteOutcome.raised =>
          (log_audit st
            { action := "CREATE_INVITE_ERROR", user_id := some uid, chat_id := some chat },
            none)
      | CreateInviteOutcome.noLink => (st, none)
      | CreateInviteOutcome.ok link =>
          let inv : InviteDoc :=
            { id := st.next_id, user_id := uid, chat_id := chat, invite_link := link,
              expire_at := expire_at, member_limit := limit, used := false,
              revoked := false, used_by_telegram_user_id := none, created_at := now }
          (log_audit { st with invites := st.invites ++ [inv], next_id := st.next_id + 1 }
            { action := "CREATE_INVITE", user_id := some uid, chat_id := some chat },
            some inv)

/-- `service.revoke_invite_link`: issue the remote revoke; only when it
did not raise, mark the first invite with the given `(invite_link,
chat_id)` revoked and write a `REVOKE_INVITE` audit entry.  A raised
remote error is caught and logged, leaving the collections untouched. -/
def revoke_invite_link (env : Env) (st : St) (link : String) (chat : Int) : St :=
  let st := recordCall st (RemoteCall.revokeChatInviteLink chat link)
  if env.revokeRaises chat link then st
  else
    let st :=
      { st with
          invites := updateFirst (fun i => i.invite_link == link && i.chat_id == chat)
            (fun i => { i with revoked := true }) st.invites }
    log_audit st { action := "REVOKE_INVITE", chat_id := some chat }

/-! ## Webhook handlers (`app/api/endpoints/telegram.py`) -/

/-- What a join-request handler run did on the remote side. -/
inductive JoinOutcome
  | declined
  | approved
  | errored
deriving Repr, DecidableEq

/-- `_handle_chat_join_request`: look up the user by Telegram id; unknown
account or no active membership lead to a remote decline plus one
`DECLINE_JOIN_REQUEST` audit entry tagged `user_not_found` resp.
`no_active_membership`; an active membership leads to a remote approve
plus one `APPROVE_JOIN_REQUEST` audit entry.  A raised remote call
propagates (`errored`) before the audit entry is written. -/
def handle_chat_join_request (env : Env) (st : St) (tg : Int) (chat : Int) :
    St × JoinOutcome :=
  match get_user_by_telegram_id st tg with
  | none =>
      let st := recordCall st (RemoteCall.declineChatJoinRequest chat tg)
      if env.declineRaises chat tg then (st, JoinOutcome.errored)
      else
        (log_audit st
          { action := "DECLINE_JOIN_REQUEST", telegram_user_id := some tg,
            chat_id := some chat, meta_reason := some "user_not_found" },
          JoinOutcome.declined)
  | some u =>
      match get_active_membership st u.id chat with
      | none =>
          let st := recordCall st (RemoteCall.declineChatJoinRequest chat tg)
          if env.declineRaises chat tg then (st, JoinOutcome.errored)
          else
            (log_audit st
              { action := "DECLINE_JOIN_REQUEST", telegram_user_id := some tg,
                chat_id := some chat, user_id := some u.id,
                meta_reason := some "no_active_membership" },
              JoinOutcome.declined)
      | some _ =>
          let st := recordCall st (RemoteCall.approveChatJoinRequest chat tg)
          if env.approveRaises chat tg then (st, JoinOutcome.errored)
          else
            (log_audit st
              { action := "APPROVE_JOIN_REQUEST", telegram_user_id := some tg,
                chat_id := some chat, user_id := some u.id },
              JoinOutcome.approved)

/-- Eligibility filter of the auto-attribution query in
`_handle_chat_member`: invites of this chat that are unused, non-revoked
and not yet expired (`expire_at >= now`). -/
def inviteEligible (now : Nat) (chat : Int) (i : InviteDoc) : Bool :=
  i.chat_id == chat && i.used == false && i.revoked == false &&
    decide ((now : Int) ≤ i.expire_at)

/-- The auto-attribution candidate: `find_one` with
`sort=[("created_at", -1)]` over the eligible invites, i.e. the first
eligible invite of maximal `created_at` (insertion order breaks ties). -/
def candidateInvite (now : Nat) (st : St) (chat : Int) : Option InviteDoc :=
  (st.invites.filter (inviteEligible now chat)).foldl
    (fun acc i =>
      match acc with
      | none => some i
      | some j => if i.created_at > j.created_at then some i else acc)
    none

/-- `_handle_chat_member`: on a transition from left/kicked into a
member-like status, either mark the joining (already linked) user's
pending invite used, or run the auto-attribution heuristic for an
unlinked account — pick `candidateInvite`, link the owning user's
`ext_user_id` (when truthy) to the joining Telegram account, mark the
candidate used, audit `INVITE_ATTRIBUTED_ON_JOIN` — and audit
`MEMBER_JOINED`.  On a transition out of a member-like status, audit
`MEMBER_LEFT`. -/
def handle_chat_member (now : Nat) (st : St) (chat : Int) (tg : Int)
    (username : Option String) (old_status new_status : String) : St :=
  if ["left", "kicked"].contains old_status &&
      ["member", "administrator", "creator"].contains new_status then
    let st :=
      match get_user_by_telegram_id st tg with
      | some iu =>
          match st.invites.find?
              (fun i => i.user_id == iu.id && i.chat_id == chat &&
                i.used == false && i.revoked == false) with
          | some inv => mark_invite_used now st inv.invite_link chat tg
          | none => st
      | none =>
          match candidateInvite now st chat with
          | none => st
          | some cand =>
              match st.users.find? (fun u => u.id == cand.user_id) with
              | none => st
              | some owner =>
                  if owner.ext_user_id != "" then
                    match link_telegram_user now st owner.ext_user_id tg username with
                    | (st, some linked) =>
                        let st := mark_invite_used now st cand.invite_link chat tg
                        log_audit st
                          { action := "INVITE_ATTRIBUTED_ON_JOIN",
                            telegram_user_id := some tg, chat_id := some chat,
                            user_id := some linked.id }
                    | (st, none) => st
                  else st
    log_audit st
      { action := "MEMBER_JOINED", telegram_user_id := some tg, chat_id := some chat }
  else if ["member", "administrator", "creator"].contains old_status &&
      ["left", "kicked"].contains new_status then
    log_audit st
      { action := "MEMBER_LEFT", telegram_user_id := some tg, chat_id := some chat }
  else st

/-- `telegram_webhook`: after the secret-path check (strip, then compare
directly and through one URL-decode on either side), the whole update
processing runs inside a `try` whose `except` also answers 200, so the
response is 200 whatever the processing did.  `process` returns the state
reached (mutations before a raise persist) and whether it raised. -/
def telegram_webhook (unquoteFn : String → String) (expected incoming : String)
    (process : St → St × Bool) (st : St) : Nat × St :=
  let inc := incoming.trim
  let exp := expected.trim
  if inc == exp || unquoteFn inc == exp || inc == unquoteFn exp then
    let (st, _raised) := process st
    (200, st)
  else (404, st)

/-! ## Reconciliation scheduler (`app/scheduler.py`) -/

/-- The body of the per-row loop of
`MembershipScheduler.process_expired_memberships`: resolve the user's
`telegram_user_id`; when the user document is missing or unlinked, expire
the membership and move on; otherwise ban, and expire only when the ban
succeeded. -/
def processRow (env : Env) (now : Nat) (st : St) (row : MembershipDoc) : St :=
  match st.users.find? (fun u => u.id == row.user_id) with
  | none => expire_membership now st row.id
  | some u =>
      match u.telegram_user_id with
      | none => expire_membership now st row.id
      | some tg =>
          let (st, ok) := ban_member env st row.chat_id tg
          if ok then expire_membership now st row.id else st

/-- `MembershipScheduler.process_expired_memberships`: snapshot every
active membership lapsed as of `now`, process each row (failures are
isolated per row), then write the watermark and a `SCHEDULER_RUN` audit
entry. -/
def process_expired_memberships (env : Env) (now : Nat) (st : St) : St :=
  let rows := find_expired_memberships st now
  let st := rows.foldl (processRow env now) st
  let st := { st with scheduler_last_run := some now }
  log_audit st { action := "SCHEDULER_RUN" }

/-! ## Grant flow (`grant_access` endpoint) -/

/-- The response assembled by `grant_access`: per-chat invite links or
join instructions, per-chat error tags, and the overall success flag
(`len(errors) == 0`). -/
structure GrantResult where
  user_id : Nat
  invites : List (Int × String)
  period_end : Int
  errors : List (Int × String)
  success : Bool
deriving Repr, DecidableEq

/-- The body of the per-chat loop of `grant_access`: resolve the channel
(`CHANNEL_NOT_FOUND` on a miss), upsert the membership as active, then —
when the user already has a linked `telegram_user_id` — best-effort unban
that account, and finally mint an invite link (`invite_link` model,
`INVITE_LINK_CREATION_FAILED` on a miss) or return the join-request
instruction. -/
def grantChatStep (env : Env) (now : Nat) (user : UserDoc) (period_end : Int)
    (acc : St × List (Int × String) × List (Int × String)) (chat : Int) :
    St × List (Int × String) × List (Int × String) :=
  let (st, invites, errors) := acc
  match get_channel st chat with
  | none => (st, invites, errors ++ [(chat, "CHANNEL_NOT_FOUND")])
  | some ch =>
      let (st, _) := upsert_membership now st user.id chat period_end MStatus.active
      let st :=
        match user.telegram_user_id with
        | some t => (unban_member env st chat t).1
        | none => st
      if ch.join_model == "invite_link" then
        match create_invite_link env now st user.id chat (some ch) with
        | (st, some inv) => (st, invites ++ [(chat, inv.invite_link)], errors)
        | (st, none) => (st, invites, errors ++ [(chat, "INVITE_LINK_CREATION_FAILED")])
      else (st, invites ++ [(chat, "join_request_model")], errors)

/-- The `grant_access` endpoint: upsert the user, compute the period end,
run the per-chat loop, and write one `GRANT_ACCESS` audit entry.  The
call reports partial success (per-chat error tags) rather than rolling
back. -/
def grant_access (env : Env) (now : Nat) (st : St) (ext : String)
    (chat_ids : List Int) (period_days : Int) (ref : Option String) :
    St × GrantResult :=
  let (st, user) := upsert_user now st ext
  let period_end := get_period_end now period_days
  let (st, invites, errors) :=
    chat_ids.foldl (grantChatStep env now user period_end) (st, [], [])
  let st := log_audit st { action := "GRANT_ACCESS", user_id := some user.id, ref := ref }
  (st, { user_id := user.id, invites := invites, period_end := period_end,
         errors := errors, success := errors.isEmpty })

/-! ## Observations and generic list lemmas -/

/-- Status of the membership with the given `_id`. -/
def statusOf (st : St) (mid : Nat) : Option MStatus :=
  (st.memberships.find? (fun m => m.id == mid)).map (fun m => m.status)

theorem find?_cons_pos {α : Type} (p : α → Bool) (x : α) (xs : List α)
    (h : p x = true) : (x :: xs).find? p = some x := by
  rw [List.find?_cons]; simp [h]

theorem find?_cons_neg {α : Type} (p : α → Bool) (x : α) (xs : List α)
    (h : p x = false) : (x :: xs).find? p = xs.find? p := by
  rw [List.find?_cons]; simp [h]

theorem updateFirst_cons_pos {α : Type} (p : α → Bool) (f : α → α) (x : α)
    (xs : List α) (h : p x = true) : updateFirst p f (x :: xs) = f x :: xs := by
  simp [updateFirst, h]

theorem updateFirst_cons_neg {α : Type} (p : α → Bool) (f : α → α) (x : α)
    (xs : List α) (h : p x = false) :
    updateFirst p f (x :: xs) = x :: updateFirst p f xs := by
  simp [updateFirst, h]

theorem updateFirst_eq_of_find?_none {α : Type} (p : α → Bool) (f : α → α)
    (l : List α) (h : l.find? p = none) : updateFirst p f l = l := by
  induction l with
  | nil => rfl
  | cons x xs ih =>
      cases hp : p x with
      | true => rw [find?_cons_pos p x xs hp] at h; exact absurd h (by simp)
      | false =>
          rw [find?_cons_neg p x xs hp] at h
          rw [updateFirst_cons_neg p f x xs hp, ih h]

theorem updateFirst_map {α β : Type} (g : α → β) (p : α → Bool) (f : α → α)
    (hf : ∀ a, g (f a) = g a) (l : List α) :
    (updateFirst p f l).map g = l.map g := by
  induction l with
  | nil => rfl
  | cons x xs ih =>
      cases hp : p x with
      | true => rw [updateFirst_cons_pos p f x xs hp]; simp [hf]
      | false => rw [updateFirst_cons_neg p f x xs hp]; simp [ih]

theorem filter_length_updateFirst {α : Type} (q p : α → Bool) (f : α → α)
    (hq : ∀ a, q (f a) = q a) (l : List α) :
    ((updateFirst p f l).filter q).length = (l.filter q).length := by
  induction l with
  | nil => rfl
  | cons x xs ih =>
      cases hp : p x with
      | true =>
          rw [updateFirst_cons_pos p f x xs hp]
          cases hx : q x with
          | true => simp [List.filter_cons, hq, hx]
          | false => simp [List.filter_cons, hq, hx]
      | false =>
          rw [updateFirst_cons_neg p f x xs hp]
          cases hx : q x with
          | true => simp [List.filter_cons, hx, ih]
          | false => simp [List.filter_cons, hx, ih]

/-- `find?` is the head of `filter`. -/
theorem find?_eq_head?_filter {α : Type} (p : α → Bool) (l : List α) :
    l.find? p = (l.filter p).head? := by
  induction l with
  | nil => rfl
  | cons x xs ih =>
      cases hp : p x with
      | true =>
          rw [find?_cons_pos p x xs hp, List.filter_cons, if_pos hp]
          rfl
      | false =>
          rw [find?_cons_neg p x xs hp, List.filter_cons, if_neg (by simp [hp]), ih]

/-- With pairwise-distinct ids, `find?` by a member's id returns exactly
that member. -/
theorem find?_id_of_nodup_mem {α : Type} (idOf : α → Nat) (l : List α) (c : α)
    (hmem : c ∈ l) (hn : (l.map idOf).Nodup) :
    l.find? (fun a => idOf a == idOf c) = some c := by
  induction l with
  | nil => exact absurd hmem (by simp)
  | cons x xs ih =>
      rcases List.mem_cons.mp hmem with hxc | hmem
      · rw [hxc]
        exact find?_cons_pos _ x xs (by simp)
      · have hx : idOf x ≠ idOf c := by
          intro he
          exact (List.nodup_cons.mp hn).1 (he ▸ List.mem_map_of_mem idOf hmem)
        rw [find?_cons_neg _ x xs (by simp [hx])]
        exact ih hmem (List.nodup_cons.mp hn).2

/-- Updating the first document whose id is `mid` rewrites exactly the
document `find?`-by-id returns. -/
theorem find?_id_updateFirst_id_self {α : Type} (idOf : α → Nat) (f : α → α)
    (hf : ∀ a, idOf (f a) = idOf a) (l : List α) (mid : Nat) :
    (updateFirst (fun a => idOf a == mid) f l).find? (fun a => idOf a == mid) =
      (l.find? (fun a => idOf a == mid)).map f := by
  induction l with
  | nil => rfl
  | cons x xs ih =>
      cases hp : (idOf x == mid) with
      | true =>
          rw [updateFirst_cons_pos _ f x xs hp,
            find?_cons_pos (fun a => idOf a == mid) (f x) xs
              (by show (idOf (f x) == mid) = true; rw [hf]; exact hp),
            find?_cons_pos (fun a => idOf a == mid) x xs hp]
          rfl
      | false =>
          rw [updateFirst_cons_neg _ f x xs hp,
            find?_cons_neg (fun a => idOf a == mid) x
              (updateFirst (fun a => idOf a == mid) f xs) hp,
            find?_cons_neg (fun a => idOf a == mid) x xs hp, ih]

/-- Updating the first `p`-match rewrites the document `find? p`
returned; under distinct ids, `find?`-by-its-id then sees the rewritten
document. -/
theorem find?_id_updateFirst_self {α : Type} (idOf : α → Nat) (p : α → Bool)
    (f : α → α) (hf : ∀ a, idOf (f a) = idOf a) (l : List α) (c : α)
    (hfind : l.find? p = some c) (hn : (l.map idOf).Nodup) :
    (updateFirst p f l).find? (fun a => idOf a == idOf c) = some (f c) := by
  induction l with
  | nil => exact absurd hfind (by simp)
  | cons x xs ih =>
      cases hp : p x with
      | true =>
          rw [find?_cons_pos p x xs hp] at hfind
          have hxc : x = c := by injection hfind
          rw [updateFirst_cons_pos p f x xs hp, hxc]
          exact find?_cons_pos _ (f c) xs
            (by show (idOf (f c) == idOf c) = true; simp [hf])
      | false =>
          rw [find?_cons_neg p x xs hp] at hfind
          have hc : c ∈ xs := List.mem_of_find?_eq_some hfind
          have hx : idOf x ≠ idOf c := by
            intro he
            exact (List.nodup_cons.mp hn).1 (he ▸ List.mem_map_of_mem idOf hc)
          rw [updateFirst_cons_neg p f x xs hp,
            find?_cons_neg _ x (updateFirst p f xs) (by simp [hx])]
          exact ih hfind (List.nodup_cons.mp hn).2

/-- Updating the first `p`-match leaves `find?`-by-id unchanged for every
other id. -/
theorem find?_id_updateFirst_of_find {α : Type} (idOf : α → Nat) (p : α → Bool)
    (f : α → α) (hf : ∀ a, idOf (f a) = idOf a) (l : List α) (c : α) (mid : Nat)
    (hfind : l.find? p = some c) (hne : idOf c ≠ mid) :
    (updateFirst p f l).find? (fun a => idOf a == mid) =
      l.find? (fun a => idOf a == mid) := by
  induction l with
  | nil => rfl
  | cons x xs ih =>
      cases hp : p x with
      | true =>
          rw [find?_cons_pos p x xs hp] at hfind
          have hxc : x = c := by injection hfind
          rw [updateFirst_cons_pos p f x xs hp, hxc,
            find?_cons_neg (fun a => idOf a == mid) (f c) xs
              (by show (idOf (f c) == mid) = false; simp [hf, hne]),
            find?_cons_neg (fun a => idOf a == mid) c xs (by simp [hne])]
      | false =>
          rw [find?_cons_neg p x xs hp] at hfind
          rw [updateFirst_cons_neg p f x xs hp]
          cases hx : (idOf x == mid) with
          | true =>
              rw [find?_cons_pos (fun a => idOf a == mid) x _ hx,
                find?_cons_pos (fun a => idOf a == mid) x xs hx]
          | false =>
              rw [find?_cons_neg (fun a => idOf a == mid) x _ hx,
                find?_cons_neg (fun a => idOf a == mid) x xs hx]
              exact ih hfind

/-- Updating a first match all of whose possible matches avoid id `mid`
leaves `find?`-by-`mid` unchanged. -/
theorem find?_id_updateFirst_of_pred_ne {α : Type} (idOf : α → Nat) (p : α → Bool)
    (f : α → α) (hf : ∀ a, idOf (f a) = idOf a) (l : List α) (mid : Nat)
    (hpne : ∀ a, p a = true → idOf a ≠ mid) :
    (updateFirst p f l).find? (fun a => idOf a == mid) =
      l.find? (fun a => idOf a == mid) := by
  induction l with
  | nil => rfl
  | cons x xs ih =>
      cases hp : p x with
      | true =>
          rw [updateFirst_cons_pos p f x xs hp,
            find?_cons_neg (fun a => idOf a == mid) (f x) xs
              (by simp [hf, hpne x hp]),
            find?_cons_neg (fun a => idOf a == mid) x xs (by simp [hpne x hp])]
      | false =>
          rw [updateFirst_cons_neg p f x xs hp]
          cases hx : (idOf x == mid) with
          | true =>
              rw [find?_cons_pos (fun a => idOf a == mid) x _ hx,
                find?_cons_pos (fun a => idOf a == mid) x xs hx]
          | false =>
              rw [find?_cons_neg (fun a => idOf a == mid) x _ hx,
                find?_cons_neg (fun a => idOf a == mid) x xs hx]
              exact ih

end TgMono

namespace TgMono

/-- C5: for every positive `N`, `get_period_end N` has time-of-day
23:59:59 UTC (= second 86399 of its day) and its date is today plus
`N - 1` days. -/
theorem get_period_end_time_and_date (now : Nat) (N : Int) (hN : 0 < N) :
    get_period_end now N % 86400 = 86399 ∧
    get_period_end now N / 86400 = ((now / 86400 : Nat) : Int) + (N - 1) := by
  unfold get_period_end get_utc_end_of_day secondsPerDay
  constructor
  · omega
  · omega

/-- Witness for C5: on 2024-01-01T00:00:00Z (epoch 1704067200, day 19723),
`get_period_end 30` is 2024-01-30T23:59:59Z (epoch 1706659199). -/
theorem get_period_end_time_and_date_witness :
    (0 : Int) < 30 ∧
      (get_period_end 1704067200 30 % 86400 = 86399 ∧
        get_period_end 1704067200 30 / 86400 = ((1704067200 / 86400 : Nat) : Int) + (30 - 1)) :=
  ⟨by decide, get_period_end_time_and_date 1704067200 30 (by decide)⟩

/-- C6 (code-bug evidence): `get_period_end` performs no validation.  At
`period_days = 0` with today = 2024-01-01 (epoch 1704067200) it returns
the timestamp 2023-12-31T23:59:59Z (epoch 1704067199) instead of failing
with a validation error; the repository's own test suite
(`tests/test_timezone_utils.py::test_period_zero_days_raises_error`)
requires a `ValueError` here.  Only the HTTP boundary validator
(`GrantAccessRequest.period_days`, `gt=0`) rejects non-positive values. -/
theorem get_period_end_zero_returns_timestamp :
    get_period_end 1704067200 0 = 1704067199 ∧
      get_period_end 1704067200 (-5) = 1703635199 ∧
      grantAccessRequestPeriodDaysValid 0 = false ∧
      grantAccessRequestPeriodDaysValid (-5) = false := by
  refine ⟨?_, ?_, by decide, by decide⟩ <;>
    · unfold get_period_end get_utc_end_of_day secondsPerDay
      norm_num

/-- C8: whenever the webhook ingress is reached with the correct secret
path, the handler answers HTTP 200, whatever the update processing did —
in particular when it raised partway through. -/
theorem webhook_always_acknowledges (u : String → String)
    (expected incoming : String) (process : St → St × Bool) (st : St)
    (h : incoming.trim = expected.trim) :
    (telegram_webhook u expected incoming process st).1 = 200 := by
  have hb : (incoming.trim == expected.trim) = true := by simp [h]
  rcases h2 : process st with ⟨s2, b2⟩
  simp [telegram_webhook, hb, h2]

/-- Witness for C8: the correct secret path is acknowledged with 200 even
when processing raises (`process` returning `true` marks a raise). -/
theorem webhook_always_acknowledges_witness :
    "hook".trim = "hook".trim ∧
      (telegram_webhook id "hook" "hook" (fun s => (s, true)) ({} : St)).1 = 200 :=
  ⟨rfl, webhook_always_acknowledges id "hook" "hook" (fun s => (s, true)) ({} : St) rfl⟩

/-- A concrete invite used by the C9 theorems. -/
def invW9 : InviteDoc :=
  { id := 3, user_id := 1, chat_id := -7, invite_link := "LK", expire_at := 100,
    member_limit := 1, used := false, revoked := false,
    used_by_telegram_user_id := none, created_at := 1 }

/-- A concrete environment whose remote revoke call raises. -/
def envW9t : Env :=
  { invite_ttl_default := 86400, invite_limit_default := 1,
    createInvite := fun _ => CreateInviteOutcome.raised,
    revokeRaises := fun _ _ => true,
    approveRaises := fun _ _ => false, declineRaises := fun _ _ => false,
    banOk := fun _ _ => false, unbanResult := fun _ _ => none }

/-- A concrete environment whose remote revoke call succeeds. -/
def envW9f : Env :=
  { envW9t with revokeRaises := fun _ _ => false }

/-- C9 counterexample: with one stored invite and a remote revoke call
that fails, `revoke_invite_link` leaves the invite's `revoked` flag
`false` (the `update_one` sits after the remote call inside the `try`,
so the caught exception skips it), contradicting the claim that the flag
is set regardless of the remote outcome. -/
theorem revoke_remote_failure_leaves_invite_unrevoked :
    (revoke_invite_link envW9t { invites := [invW9] } "LK" (-7)).invites.map
        (fun i => i.revoked) = [false] ∧
      (revoke_invite_link envW9t { invites := [invW9] } "LK" (-7)).calls =
        [RemoteCall.revokeChatInviteLink (-7) "LK"] ∧
      (revoke_invite_link envW9t { invites := [invW9] } "LK" (-7)).audits = [] := by
  refine ⟨?_, ?_, ?_⟩ <;> rfl

/-- C9 (amended): `revoke_invite_link` always issues the remote revoke
call; when the remote call fails the exception is caught and the invite
collection and audit trail are left unchanged; only when the remote call
succeeds is the first matching invite marked revoked and a
`REVOKE_INVITE` audit entry written. -/
theorem revoke_invite_marks_revoked_only_on_remote_success
    (env : Env) (st : St) (link : String) (chat : Int) :
    (revoke_invite_link env st link chat).calls =
        st.calls ++ [RemoteCall.revokeChatInviteLink chat link] ∧
      (env.revokeRaises chat link = true →
        (revoke_invite_link env st link chat).invites = st.invites ∧
          (revoke_invite_link env st link chat).audits = st.audits) ∧
      (env.revokeRaises chat link = false →
        (revoke_invite_link env st link chat).audits =
            st.audits ++ [{ action := "REVOKE_INVITE", chat_id := some chat }] ∧
          ∀ inv, st.invites.find?
              (fun i => i.invite_link == link && i.chat_id == chat) = some inv →
            (st.invites.map (fun i => i.id)).Nodup →
            ((revoke_invite_link env st link chat).invites.find?
                (fun i => i.id == inv.id)).map (fun i => i.revoked) = some true) := by
  cases hr : env.revokeRaises chat link with
  | true =>
      refine ⟨?_, fun _ => ⟨?_, ?_⟩, fun hc => by simp [hr] at hc⟩ <;>
        simp [revoke_invite_link, recordCall, log_audit, hr]
  | false =>
      refine ⟨?_, fun hc => by simp [hr] at hc, fun _ => ⟨?_, ?_⟩⟩
      · simp [revoke_invite_link, recordCall, log_audit, hr]
      · simp [revoke_invite_link, recordCall, log_audit, hr]
      · intro inv hfind hnodup
        have h := find?_id_updateFirst_self (fun i => i.id)
          (fun i => i.invite_link == link && i.chat_id == chat)
          (fun i => { i with revoked := true }) (fun a => rfl)
          st.invites inv hfind hnodup
        simp only [revoke_invite_link, recordCall, log_audit, hr, if_neg]
        simp [h]

/-- Witness for C9's amended theorem: the remote-success branch marks the
stored invite revoked; the remote-failure branch leaves the collection
untouched. -/
theorem revoke_invite_marks_revoked_only_on_remote_success_witness :
    (((revoke_invite_link envW9f { invites := [invW9] } "LK" (-7)).invites.find?
        (fun i => i.id == invW9.id)).map (fun i => i.revoked) = some true) ∧
      (revoke_invite_link envW9t { invites := [invW9] } "LK" (-7)).invites =
        ({ invites := [invW9] } : St).invites :=
  ⟨((revoke_invite_marks_revoked_only_on_remote_success envW9f
      { invites := [invW9] } "LK" (-7)).2.2 rfl).2 invW9 (by decide) (by decide),
    ((revoke_invite_marks_revoked_only_on_remote_success envW9t
      { invites := [invW9] } "LK" (-7)).2.1 rfl).1⟩

/-- C2: the join-request state machine.  An unknown platform account is
declined with exactly one `user_not_found` audit entry; a known account
with no active membership for the chat is declined with exactly one
`no_active_membership` audit entry; a known account with an active
membership is approved with exactly one approval audit entry — in each
case provided the respective remote call did not raise. -/
theorem join_request_state_machine (env : Env) (st : St) (tg chat : Int) :
    (st.users.find? (fun u => u.telegram_user_id == some tg) = none →
      env.declineRaises chat tg = false →
      (handle_chat_join_request env st tg chat).2 = JoinOutcome.declined ∧
        (handle_chat_join_request env st tg chat).1.audits =
          st.audits ++ [{ action := "DECLINE_JOIN_REQUEST", telegram_user_id := some tg, chat_id := some chat, meta_reason := some "user_not_found" }]) ∧
    (∀ u, st.users.find? (fun v => v.telegram_user_id == some tg) = some u →
      get_active_membership st u.id chat = none →
      env.declineRaises chat tg = false →
      (handle_chat_join_request env st tg chat).2 = JoinOutcome.declined ∧
        (handle_chat_join_request env st tg chat).1.audits =
          st.audits ++ [{ action := "DECLINE_JOIN_REQUEST", telegram_user_id := some tg, chat_id := some chat, user_id := some u.id, meta_reason := some "no_active_membership" }]) ∧
    (∀ u m, st.users.find? (fun v => v.telegram_user_id == some tg) = some u →
      get_active_membership st u.id chat = some m →
      env.approveRaises chat tg = false →
      (handle_chat_join_request env st tg chat).2 = JoinOutcome.approved ∧
        (handle_chat_join_request env st tg chat).1.audits =
          st.audits ++ [{ action := "APPROVE_JOIN_REQUEST", telegram_user_id := some tg, chat_id := some chat, user_id := some u.id }]) := by
  refine ⟨fun hu hd => ?_, fun u hu hm hd => ?_, fun u m hu hm ha => ?_⟩
  · simp [handle_chat_join_request, get_user_by_telegram_id, hu, hd,
      recordCall, log_audit]
  · simp [handle_chat_join_request, get_user_by_telegram_id, hu, hm, hd,
      recordCall, log_audit]
  · simp [handle_chat_join_request, get_user_by_telegram_id, hu, hm, ha,
      recordCall, log_audit]

/-- An environment for witnesses in which every remote call succeeds. -/
def envT : Env :=
  { invite_ttl_default := 3600, invite_limit_default := 1,
    createInvite := fun _ => CreateInviteOutcome.ok "INV",
    revokeRaises := fun _ _ => false, approveRaises := fun _ _ => false,
    declineRaises := fun _ _ => false, banOk := fun _ _ => true,
    unbanResult := fun _ _ => some true }

/-- A linked user for the C2 witness. -/
def userW2 : UserDoc :=
  { id := 0, ext_user_id := "x1", telegram_user_id := some 7,
    telegram_username := none, created_at := 0, updated_at := 0 }

/-- An active membership of `userW2` for the C2 witness. -/
def memW2 : MembershipDoc :=
  { id := 1, user_id := 0, chat_id := -9, status := MStatus.active,
    current_period_end := 99, created_at := 0, updated_at := 0 }

/-- Witness for C2: the three outcomes at concrete states — unknown
account, known account without membership, known account with an active
membership. -/
theorem join_request_state_machine_witness :
    ((handle_chat_join_request envT ({} : St) 7 (-9)).2 = JoinOutcome.declined ∧
      (handle_chat_join_request envT ({} : St) 7 (-9)).1.audits =
        ({} : St).audits ++ [{ action := "DECLINE_JOIN_REQUEST", telegram_user_id := some 7, chat_id := some (-9), meta_reason := some "user_not_found" }]) ∧
    ((handle_chat_join_request envT { users := [userW2] } 7 (-9)).2 =
        JoinOutcome.declined ∧
      (handle_chat_join_request envT { users := [userW2] } 7 (-9)).1.audits =
        ({ users := [userW2] } : St).audits ++
          [{ action := "DECLINE_JOIN_REQUEST", telegram_user_id := some 7, chat_id := some (-9), user_id := some userW2.id, meta_reason := some "no_active_membership" }]) ∧
    ((handle_chat_join_request envT { users := [userW2], memberships := [memW2] }
        7 (-9)).2 = JoinOutcome.approved ∧
      (handle_chat_join_request envT { users := [userW2], memberships := [memW2] }
          7 (-9)).1.audits =
        ({ users := [userW2], memberships := [memW2] } : St).audits ++
          [{ action := "APPROVE_JOIN_REQUEST", telegram_user_id := some 7, chat_id := some (-9), user_id := some userW2.id }]) :=
  ⟨(join_request_state_machine envT ({} : St) 7 (-9)).1 rfl rfl,
    (join_request_state_machine envT { users := [userW2] } 7 (-9)).2.1 userW2
      (by decide) (by decide) rfl,
    (join_request_state_machine envT { users := [userW2], memberships := [memW2] }
      7 (-9)).2.2 userW2 memW2 (by decide) (by decide) rfl⟩

/-- Updating the first id-match of a singleton filter-result rewrites
exactly that document in the filter image. -/
theorem filter_updateFirst_of_single {α : Type} (idOf : α → Nat) (q : α → Bool)
    (f : α → α) (l : List α) (c : α)
    (hfq : q (f c) = true)
    (hfilter : l.filter q = [c])
    (hid : l.find? (fun a => idOf a == idOf c) = some c) :
    (updateFirst (fun a => idOf a == idOf c) f l).filter q = [f c] := by
  induction l with
  | nil => simp at hfilter
  | cons x xs ih =>
      cases hqx : q x with
      | true =>
          rw [List.filter_cons, if_pos hqx] at hfilter
          obtain ⟨hx, hxs⟩ := List.cons_eq_cons.mp hfilter
          rw [updateFirst_cons_pos _ f x xs (by rw [hx]; simp),
            List.filter_cons, if_pos (by rw [hx]; exact hfq), hx, hxs]
      | false =>
          rw [List.filter_cons, if_neg (by simp [hqx])] at hfilter
          have hcf : c ∈ xs.filter q := by rw [hfilter]; exact List.mem_singleton.mpr rfl
          have hqc : q c = true := (List.mem_filter.mp hcf).2
          cases hix : (idOf x == idOf c) with
          | true =>
              rw [find?_cons_pos _ x xs hix] at hid
              have hx : x = c := by injection hid
              rw [hx] at hqx
              rw [hqx] at hqc
              exact absurd hqc (by simp)
          | false =>
              rw [find?_cons_neg _ x xs hix] at hid
              rw [updateFirst_cons_neg _ f x xs hix, List.filter_cons,
                if_neg (by simp [hqx])]
              exact ih hfilter hid

/-- When the `(user, chat)` pair has exactly one membership row and ids
are coherent, `upsert_membership` rewrites that row in place. -/
theorem upsert_membership_single (now : Nat) (st : St) (uid : Nat) (chat : Int)
    (p : Int) (s : MStatus) (mm : MembershipDoc)
    (hfilter : st.memberships.filter
      (fun m => m.user_id == uid && m.chat_id == chat) = [mm])
    (hid : st.memberships.find? (fun a => a.id == mm.id) = some mm) :
    (upsert_membership now st uid chat p s).1.memberships.filter
        (fun m => m.user_id == uid && m.chat_id == chat) =
      [{ mm with status := s, current_period_end := p, updated_at := now }] := by
  have hfind : st.memberships.find?
      (fun m => m.user_id == uid && m.chat_id == chat) = some mm := by
    rw [find?_eq_head?_filter, hfilter]; rfl
  have hq : (mm.user_id == uid && mm.chat_id == chat) = true := by
    have : mm ∈ st.memberships.filter (fun m => m.user_id == uid && m.chat_id == chat) := by
      rw [hfilter]; exact List.mem_singleton.mpr rfl
    exact (List.mem_filter.mp this).2
  simp only [upsert_membership, hfind, log_audit]
  exact filter_updateFirst_of_single (fun m => m.id)
    (fun m => m.user_id == uid && m.chat_id == chat)
    (fun v => { v with status := s, current_period_end := p, updated_at := now })
    st.memberships mm (by simpa using hq) hfilter hid

/-- Unfold of `upsert_user` when the user exists. -/
theorem upsert_user_users_of_found (now : Nat) (st : St) (x : String) (u : UserDoc)
    (h : st.users.find? (fun v => v.ext_user_id == x) = some u) :
    (upsert_user now st x).1.users =
      updateFirst (fun v => v.id == u.id)
        (fun v => { v with updated_at := now }) st.users := by
  simp only [upsert_user, h]

/-- Unfold of `upsert_user` when the user does not exist. -/
theorem upsert_user_users_of_none (now : Nat) (st : St) (x : String)
    (h : st.users.find? (fun v => v.ext_user_id == x) = none) :
    (upsert_user now st x).1.users =
      st.users ++ [{ id := st.next_id, ext_user_id := x, telegram_user_id := none, telegram_username := none, created_at := now, updated_at := now }] := by
  simp only [upsert_user, h, log_audit]

/-- Unfold of `upsert_membership` when the pair has a row. -/
theorem upsert_membership_memberships_of_found (now : Nat) (st : St) (uid : Nat)
    (chat : Int) (p : Int) (s : MStatus) (m : MembershipDoc)
    (h : st.memberships.find? (fun v => v.user_id == uid && v.chat_id == chat) = some m) :
    (upsert_membership now st uid chat p s).1.memberships =
      updateFirst (fun v => v.id == m.id)
        (fun v => { v with status := s, current_period_end := p, updated_at := now })
        st.memberships := by
  simp only [upsert_membership, h, log_audit]

/-- Unfold of `upsert_membership` when the pair has no row. -/
theorem upsert_membership_memberships_of_none (now : Nat) (st : St) (uid : Nat)
    (chat : Int) (p : Int) (s : MStatus)
    (h : st.memberships.find? (fun v => v.user_id == uid && v.chat_id == chat) = none) :
    (upsert_membership now st uid chat p s).1.memberships =
      st.memberships ++ [{ id := st.next_id, user_id := uid, chat_id := chat, status := s, current_period_end := p, created_at := now, updated_at := now }] := by
  simp only [upsert_membership, h, log_audit]

/-- C7: upsert idempotence.  Calling `upsert_user(x)` twice leaves
exactly one user record for `x` (the embedding is total: there is no
error path), and upserting the membership of one `(user, chat)` pair
twice — as two identical grant calls do — leaves exactly one membership
row, active, with the period end of the later call. -/
theorem upsert_idempotence (now1 now2 : Nat) (st : St) (x : String)
    (uid : Nat) (chat : Int) (p1 p2 : Int) :
    ((st.users.filter (fun u => u.ext_user_id == x)).length ≤ 1 →
      ((upsert_user now2 (upsert_user now1 st x).1 x).1.users.filter
          (fun u => u.ext_user_id == x)).length = 1) ∧
    ((st.memberships.map (fun m => m.id)).Nodup →
      (∀ m ∈ st.memberships, m.id < st.next_id) →
      (st.memberships.filter
          (fun m => m.user_id == uid && m.chat_id == chat)).length ≤ 1 →
      ((upsert_membership now2
            (upsert_membership now1 st uid chat p1 MStatus.active).1
            uid chat p2 MStatus.active).1.memberships.filter
          (fun m => m.user_id == uid && m.chat_id == chat)).map
          (fun m => (m.current_period_end, m.status)) = [(p2, MStatus.active)]) := by
  constructor
  · intro hlen
    cases hf : st.users.find? (fun u => u.ext_user_id == x) with
    | none =>
        have hnil : st.users.filter (fun u => u.ext_user_id == x) = [] := by
          rw [List.filter_eq_nil_iff]
          intro a ha
          simpa using List.find?_eq_none.mp hf a ha
        have hst1 : (upsert_user now1 st x).1.users =
            st.users ++ [{ id := st.next_id, ext_user_id := x, telegram_user_id := none, telegram_username := none, created_at := now1, updated_at := now1 }] :=
          upsert_user_users_of_none now1 st x hf
        have hfilter1 : (upsert_user now1 st x).1.users.filter
            (fun u => u.ext_user_id == x) =
            [{ id := st.next_id, ext_user_id := x, telegram_user_id := none, telegram_username := none, created_at := now1, updated_at := now1 }] := by
          rw [hst1, List.filter_append, hnil]
          simp
        have hfind1 : (upsert_user now1 st x).1.users.find?
            (fun u => u.ext_user_id == x) =
            some { id := st.next_id, ext_user_id := x, telegram_user_id := none, telegram_username := none, created_at := now1, updated_at := now1 } := by
          rw [find?_eq_head?_filter, hfilter1]; rfl
        have hst2 : (upsert_user now2 (upsert_user now1 st x).1 x).1.users =
            updateFirst (fun v => v.id == st.next_id)
              (fun v => { v with updated_at := now2 })
              (upsert_user now1 st x).1.users :=
          upsert_user_users_of_found now2 _ x _ hfind1
        have hflen := filter_length_updateFirst (fun u => u.ext_user_id == x)
          (fun v => v.id == st.next_id) (fun v => { v with updated_at := now2 })
          (fun a => rfl) (upsert_user now1 st x).1.users
        rw [hst2, hflen, hfilter1]
        rfl
    | some u =>
        have hmemu : u ∈ st.users := List.mem_of_find?_eq_some hf
        have hpu := List.find?_some hf
        have hpos : 0 < (st.users.filter (fun v => v.ext_user_id == x)).length :=
          List.length_pos_of_mem (List.mem_filter.mpr ⟨hmemu, hpu⟩)
        have hone : (st.users.filter (fun v => v.ext_user_id == x)).length = 1 := by
          omega
        have hst1 : (upsert_user now1 st x).1.users =
            updateFirst (fun v => v.id == u.id)
              (fun v => { v with updated_at := now1 }) st.users :=
          upsert_user_users_of_found now1 st x u hf
        have hlen1 : ((upsert_user now1 st x).1.users.filter
            (fun v => v.ext_user_id == x)).length = 1 := by
          have hflen := filter_length_updateFirst (fun v => v.ext_user_id == x)
            (fun v => v.id == u.id) (fun v => { v with updated_at := now1 })
            (fun a => rfl) st.users
          rw [hst1, hflen, hone]
        obtain ⟨w, hw⟩ := List.length_eq_one.mp hlen1
        have hfindw : (upsert_user now1 st x).1.users.find?
            (fun v => v.ext_user_id == x) = some w := by
          rw [find?_eq_head?_filter, hw]; rfl
        have hst2 : (upsert_user now2 (upsert_user now1 st x).1 x).1.users =
            updateFirst (fun v => v.id == w.id)
              (fun v => { v with updated_at := now2 })
              (upsert_user now1 st x).1.users :=
          upsert_user_users_of_found now2 _ x w hfindw
        have hflen := filter_length_updateFirst (fun v => v.ext_user_id == x)
          (fun v => v.id == w.id) (fun v => { v with updated_at := now2 })
          (fun a => rfl) (upsert_user now1 st x).1.users
        rw [hst2, hflen, hlen1]
  · intro hnodup hlt hlen
    cases hf : st.memberships.find? (fun m => m.user_id == uid && m.chat_id == chat) with
    | none =>
        have hnil : st.memberships.filter
            (fun m => m.user_id == uid && m.chat_id == chat) = [] := by
          rw [List.filter_eq_nil_iff]
          intro a ha
          simpa using List.find?_eq_none.mp hf a ha
        have hst1 : (upsert_membership now1 st uid chat p1 MStatus.active).1.memberships =
            st.memberships ++ [{ id := st.next_id, user_id := uid, chat_id := chat, status := MStatus.active, current_period_end := p1, created_at := now1, updated_at := now1 }] :=
          upsert_membership_memberships_of_none now1 st uid chat p1 MStatus.active hf
        have hfilter1 : (upsert_membership now1 st uid chat p1
            MStatus.active).1.memberships.filter
            (fun m => m.user_id == uid && m.chat_id == chat) =
            [{ id := st.next_id, user_id := uid, chat_id := chat, status := MStatus.active, current_period_end := p1, created_at := now1, updated_at := now1 }] := by
          rw [hst1, List.filter_append, hnil]
          simp
        have hid1 : (upsert_membership now1 st uid chat p1
            MStatus.active).1.memberships.find?
            (fun a => a.id == st.next_id) =
            some { id := st.next_id, user_id := uid, chat_id := chat, status := MStatus.active, current_period_end := p1, created_at := now1, updated_at := now1 } := by
          rw [hst1, find?_eq_head?_filter, List.filter_append]
          have : st.memberships.filter (fun a => a.id == st.next_id) = [] := by
            rw [List.filter_eq_nil_iff]
            intro a ha
            have := hlt a ha
            simp
            omega
          rw [this]
          simp
        have := upsert_membership_single now2
          (upsert_membership now1 st uid chat p1 MStatus.active).1 uid chat p2
          MStatus.active _ hfilter1 hid1
        rw [this]
        rfl
    | some m =>
        have hmemm : m ∈ st.memberships := List.mem_of_find?_eq_some hf
        have hpm := List.find?_some hf
        have hpos : 0 < (st.memberships.filter
            (fun v => v.user_id == uid && v.chat_id == chat)).length :=
          List.length_pos_of_mem (List.mem_filter.mpr ⟨hmemm, hpm⟩)
        obtain ⟨w, hw⟩ := List.length_eq_one.mp (by omega :
          (st.memberships.filter
            (fun v => v.user_id == uid && v.chat_id == chat)).length = 1)
        have hwm : w = m := by
          have h1 := find?_eq_head?_filter
            (fun v => v.user_id == uid && v.chat_id == chat) st.memberships
          rw [hf, hw] at h1
          exact (Option.some.inj h1).symm
        rw [hwm] at hw
        have hidm : st.memberships.find? (fun a => a.id == m.id) = some m :=
          find?_id_of_nodup_mem (fun a => a.id) st.memberships m hmemm hnodup
        have hfirst := upsert_membership_single now1 st uid chat p1
          MStatus.active m hw hidm
        have hst1 : (upsert_membership now1 st uid chat p1 MStatus.active).1.memberships =
            updateFirst (fun v => v.id == m.id)
              (fun v => { v with status := MStatus.active, current_period_end := p1, updated_at := now1 }) st.memberships :=
          upsert_membership_memberships_of_found now1 st uid chat p1 MStatus.active m hf
        have hid1 : (upsert_membership now1 st uid chat p1
            MStatus.active).1.memberships.find? (fun a => a.id == m.id) =
            some { m with status := MStatus.active, current_period_end := p1, updated_at := now1 } := by
          rw [hst1]
          have := find?_id_updateFirst_id_self (fun a => a.id)
            (fun v => { v with status := MStatus.active, current_period_end := p1, updated_at := now1 })
            (fun a => rfl) st.memberships m.id
          rw [this, hidm]
          rfl
        have := upsert_membership_single now2
          (upsert_membership now1 st uid chat p1 MStatus.active).1 uid chat p2
          MStatus.active _ hfirst hid1
        rw [this]
        rfl

/-- Witness for C7: both upsert operations, run twice from the empty
store, leave exactly one record with the later call's values. -/
theorem upsert_idempotence_witness :
    ((({} : St).users.filter (fun u => u.ext_user_id == "b1")).length ≤ 1 ∧
      ((upsert_user 20 (upsert_user 10 ({} : St) "b1").1 "b1").1.users.filter
          (fun u => u.ext_user_id == "b1")).length = 1) ∧
    ((upsert_membership 20 (upsert_membership 10 ({} : St) 0 (-4) 111
          MStatus.active).1 0 (-4) 222 MStatus.active).1.memberships.filter
        (fun m => m.user_id == 0 && m.chat_id == (-4))).map
        (fun m => (m.current_period_end, m.status)) = [(222, MStatus.active)] :=
  ⟨⟨by decide,
    (upsert_idempotence 10 20 ({} : St) "b1" 0 (-4) 111 222).1 (by decide)⟩,
    (upsert_idempotence 10 20 ({} : St) "b1" 0 (-4) 111 222).2 (by decide)
      (by intro m hm; simp at hm) (by decide)⟩

/-- Specialisation of `find?_id_updateFirst_id_self` to user documents. -/
theorem find?_userId_updateFirst_self (f : UserDoc → UserDoc)
    (hf : ∀ a, (f a).id = a.id) (l : List UserDoc) (mid : Nat) :
    (updateFirst (fun v => v.id == mid) f l).find? (fun v => v.id == mid) =
      (l.find? (fun v => v.id == mid)).map f :=
  find?_id_updateFirst_id_self (fun a => a.id) f hf l mid

/-- Specialisation of `find?_id_of_nodup_mem` to user documents. -/
theorem find?_userId_of_nodup_mem (l : List UserDoc) (c : UserDoc)
    (hmem : c ∈ l) (hn : (l.map (fun v => v.id)).Nodup) :
    l.find? (fun v => v.id == c.id) = some c :=
  find?_id_of_nodup_mem (fun a => a.id) l c hmem hn

/-- Specialisation of `find?_id_updateFirst_self` to invite documents. -/
theorem find?_invId_updateFirst_self (p : InviteDoc → Bool)
    (f : InviteDoc → InviteDoc) (hf : ∀ a, (f a).id = a.id)
    (l : List InviteDoc) (c : InviteDoc)
    (hfind : l.find? p = some c) (hn : (l.map (fun i => i.id)).Nodup) :
    (updateFirst p f l).find? (fun i => i.id == c.id) = some (f c) :=
  find?_id_updateFirst_self (fun a => a.id) p f hf l c hfind hn

/-- Specialisation of `find?_id_updateFirst_of_find` to invite documents. -/
theorem find?_invId_updateFirst_of_find (p : InviteDoc → Bool)
    (f : InviteDoc → InviteDoc) (hf : ∀ a, (f a).id = a.id)
    (l : List InviteDoc) (c : InviteDoc) (mid : Nat)
    (hfind : l.find? p = some c) (hne : c.id ≠ mid) :
    (updateFirst p f l).find? (fun i => i.id == mid) =
      l.find? (fun i => i.id == mid) :=
  find?_id_updateFirst_of_find (fun a => a.id) p f hf l c mid hfind hne

/-- Unfold of `link_telegram_user` when the external id resolves. -/
theorem link_telegram_user_of_found (now : Nat) (st : St) (ext : String)
    (tg : Int) (username : Option String) (u : UserDoc)
    (h : st.users.find? (fun v => v.ext_user_id == ext) = some u) :
    link_telegram_user now st ext tg username =
      (log_audit
        { st with
            users := updateFirst (fun v => v.id == u.id)
              (linkUpd now tg username) st.users }
        { action := "LINK_TELEGRAM_USER", user_id := some u.id, telegram_user_id := some tg },
        some (linkUpd now tg username u)) := by
  simp only [link_telegram_user, h, linkUpd]

/-- The foldl of `candidateInvite` returns an element of the list (or the
seed) that bounds every element's `created_at` from above. -/
theorem foldlMax_spec (l : List InviteDoc) : ∀ (acc : Option InviteDoc) (r : InviteDoc),
    l.foldl (fun acc i =>
      match acc with
      | none => some i
      | some j => if i.created_at > j.created_at then some i else acc) acc = some r →
    (r ∈ l ∨ acc = some r) ∧
      (∀ j, acc = some j → j.created_at ≤ r.created_at) ∧
      (∀ i ∈ l, i.created_at ≤ r.created_at) := by
  induction l with
  | nil =>
      intro acc r h
      simp only [List.foldl_nil] at h
      refine ⟨Or.inr h, fun j hj => ?_, by simp⟩
      rw [h] at hj
      injection hj with e
      rw [e]
  | cons x xs ih =>
      intro acc r h
      rw [List.foldl_cons] at h
      cases acc with
      | none =>
          obtain ⟨h1, h2, h3⟩ := ih (some x) r h
          refine ⟨?_, fun j hj => by simp at hj, fun i hi => ?_⟩
          · rcases h1 with hr | hax
            · exact Or.inl (List.mem_cons_of_mem x hr)
            · have hx : x = r := by injection hax
              exact Or.inl (hx ▸ List.mem_cons_self x xs)
          · rcases List.mem_cons.mp hi with hix | hixs
            · rw [hix]
              exact h2 x rfl
            · exact h3 i hixs
      | some j =>
          by_cases hgt : x.created_at > j.created_at
          · have h' : xs.foldl (fun acc i =>
                match acc with
                | none => some i
                | some j => if i.created_at > j.created_at then some i else acc)
                (some x) = some r := by
              dsimp only at h
              rwa [if_pos hgt] at h
            obtain ⟨h1, h2, h3⟩ := ih (some x) r h'
            refine ⟨?_, fun j' hj' => ?_, fun i hi => ?_⟩
            · rcases h1 with hr | hax
              · exact Or.inl (List.mem_cons_of_mem x hr)
              · have hx : x = r := by injection hax
                exact Or.inl (hx ▸ List.mem_cons_self x xs)
            · have hj : j = j' := by injection hj'
              have hxr : x.created_at ≤ r.created_at := h2 x rfl
              rw [← hj]
              omega
            · rcases List.mem_cons.mp hi with hix | hixs
              · rw [hix]
                exact h2 x rfl
              · exact h3 i hixs
          · have h' : xs.foldl (fun acc i =>
                match acc with
                | none => some i
                | some j => if i.created_at > j.created_at then some i else acc)
                (some j) = some r := by
              dsimp only at h
              rwa [if_neg hgt] at h
            obtain ⟨h1, h2, h3⟩ := ih (some j) r h'
            refine ⟨?_, h2, fun i hi => ?_⟩
            · rcases h1 with hr | hax
              · exact Or.inl (List.mem_cons_of_mem x hr)
              · exact Or.inr hax
            · rcases List.mem_cons.mp hi with hix | hixs
              · have hjr : j.created_at ≤ r.created_at := h2 j rfl
                rw [hix]
                omega
              · exact h3 i hixs

/-- `candidateInvite` picks an eligible invite whose creation time is
maximal among the eligible invites of the chat. -/
theorem candidateInvite_spec (now : Nat) (st : St) (chat : Int) (cand : InviteDoc)
    (h : candidateInvite now st chat = some cand) :
    inviteEligible now chat cand = true ∧
      ∀ i ∈ st.invites, inviteEligible now chat i = true →
        i.created_at ≤ cand.created_at := by
  unfold candidateInvite at h
  obtain ⟨h1, _, h3⟩ := foldlMax_spec _ none cand h
  constructor
  · rcases h1 with hr | hax
    · exact (List.mem_filter.mp hr).2
    · exact absurd hax (by simp)
  · intro i hi he
    exact h3 i (List.mem_filter.mpr ⟨hi, he⟩)

/-- Splitting a nodup list at an element: the other ids differ. -/
theorem nodup_split_ne {α : Type} [DecidableEq α] (l1 l2 : List α) (a : α)
    (h : (l1 ++ a :: l2).Nodup) :
    (∀ b ∈ l1, b ≠ a) ∧ ∀ b ∈ l2, b ≠ a := by
  simp only [List.nodup_append, List.nodup_cons, List.disjoint_left] at h
  constructor
  · intro b hb
    exact fun he => h.2.2 hb (by simp [he])
  · intro b hb he
    exact h.2.1.1 (he ▸ hb)

/-- Specialisation of `find?_id_updateFirst_id_self` to memberships. -/
theorem find?_memId_updateFirst_id_self (f : MembershipDoc → MembershipDoc)
    (hf : ∀ a, (f a).id = a.id) (l : List MembershipDoc) (mid : Nat) :
    (updateFirst (fun v => v.id == mid) f l).find? (fun v => v.id == mid) =
      (l.find? (fun v => v.id == mid)).map f :=
  find?_id_updateFirst_id_self (fun a => a.id) f hf l mid

/-- Specialisation of `find?_id_updateFirst_of_pred_ne` to memberships
updated by their own id. -/
theorem find?_memId_updateFirst_of_ne (rid : Nat)
    (f : MembershipDoc → MembershipDoc) (hf : ∀ a, (f a).id = a.id)
    (l : List MembershipDoc) (mid : Nat) (hne : rid ≠ mid) :
    (updateFirst (fun v => v.id == rid) f l).find? (fun v => v.id == mid) =
      l.find? (fun v => v.id == mid) := by
  refine find?_id_updateFirst_of_pred_ne (fun a => a.id)
    (fun v => v.id == rid) f hf l mid (fun a ha => ?_)
  have hid : a.id = rid := by simpa using ha
  have h2 : a.id ≠ mid := by rw [hid]; exact hne
  exact h2

/-- `statusOf` ignores the audit, watermark and call fields. -/
theorem statusOf_expire_membership_self (now : Nat) (st : St) (mid : Nat)
    (hex : (st.memberships.find? (fun v => v.id == mid)).isSome) :
    statusOf (expire_membership now st mid) mid = some MStatus.expired := by
  obtain ⟨d, hd⟩ := Option.isSome_iff_exists.mp hex
  unfold statusOf expire_membership
  rw [find?_memId_updateFirst_id_self
    (fun m => { m with status := MStatus.expired, updated_at := now })
    (fun a => rfl) st.memberships mid, hd]
  rfl

/-- `expire_membership` leaves the status of every other id unchanged. -/
theorem statusOf_expire_membership_ne (now : Nat) (st : St) (rid mid : Nat)
    (hne : rid ≠ mid) :
    statusOf (expire_membership now st rid) mid = statusOf st mid := by
  unfold statusOf expire_membership
  rw [find?_memId_updateFirst_of_ne rid
    (fun m => { m with status := MStatus.expired, updated_at := now })
    (fun a => rfl) st.memberships mid hne]

/-- `processRow` never touches the user collection. -/
theorem processRow_users (env : Env) (now : Nat) (st : St) (r : MembershipDoc) :
    (processRow env now st r).users = st.users := by
  cases hf : st.users.find? (fun u => u.id == r.user_id) with
  | none => simp [processRow, hf, expire_membership]
  | some u =>
      cases htg : u.telegram_user_id with
      | none => simp [processRow, hf, htg, expire_membership]
      | some tg =>
          cases hb : env.banOk r.chat_id tg with
          | true =>
              simp [processRow, hf, htg, ban_member, hb, expire_membership,
                log_audit, recordCall]
          | false =>
              simp [processRow, hf, htg, ban_member, hb, log_audit, recordCall]

/-- `processRow` preserves the membership id sequence. -/
theorem processRow_memids (env : Env) (now : Nat) (st : St) (r : MembershipDoc) :
    (processRow env now st r).memberships.map (fun v => v.id) =
      st.memberships.map (fun v => v.id) := by
  have hup : ∀ (s : St) (mid : Nat),
      (expire_membership now s mid).memberships.map (fun v => v.id) =
        s.memberships.map (fun v => v.id) := by
    intro s mid
    exact updateFirst_map (fun v => v.id) (fun v => v.id == mid)
      (fun m => { m with status := MStatus.expired, updated_at := now })
      (fun a => rfl) s.memberships
  cases hf : st.users.find? (fun u => u.id == r.user_id) with
  | none => simp [processRow, hf, hup]
  | some u =>
      cases htg : u.telegram_user_id with
      | none => simp [processRow, hf, htg, hup]
      | some tg =>
          cases hb : env.banOk r.chat_id tg with
          | true =>
              simp [processRow, hf, htg, ban_member, hb, log_audit, recordCall, hup,
                expire_membership]
              exact updateFirst_map (fun v => v.id) (fun v => v.id == r.id)
                (fun m => { m with status := MStatus.expired, updated_at := now })
                (fun a => rfl) st.memberships
          | false =>
              simp [processRow, hf, htg, ban_member, hb, log_audit, recordCall]

/-- `processRow` leaves the status of every membership other than its own
row unchanged. -/
theorem processRow_status_ne (env : Env) (now : Nat) (st : St)
    (r : MembershipDoc) (mid : Nat) (hne : r.id ≠ mid) :
    statusOf (processRow env now st r) mid = statusOf st mid := by
  have hexp : ∀ s : St, statusOf (expire_membership now s r.id) mid = statusOf s mid :=
    fun s => statusOf_expire_membership_ne now s r.id mid hne
  cases hf : st.users.find? (fun u => u.id == r.user_id) with
  | none => simp [processRow, hf, hexp]
  | some u =>
      cases htg : u.telegram_user_id with
      | none => simp [processRow, hf, htg, hexp]
      | some tg =>
          cases hb : env.banOk r.chat_id tg with
          | true =>
              have : statusOf (processRow env now st r) mid =
                  statusOf (expire_membership now
                    (log_audit (recordCall st (RemoteCall.banChatMember r.chat_id tg))
                      { action := "BAN_MEMBER", telegram_user_id := some tg, chat_id := some r.chat_id }) r.id) mid := by
                simp [processRow, hf, htg, ban_member, hb]
              rw [this, statusOf_expire_membership_ne now _ r.id mid hne]
              rfl
          | false =>
              simp [processRow, hf, htg, ban_member, hb, statusOf, log_audit, recordCall]

/-- `processRow` only appends audit entries. -/
theorem processRow_audits_mono (env : Env) (now : Nat) (st : St) (r : MembershipDoc) :
    ∃ l, (processRow env now st r).audits = st.audits ++ l := by
  cases hf : st.users.find? (fun u => u.id == r.user_id) with
  | none => exact ⟨[], by simp [processRow, hf, expire_membership]⟩
  | some u =>
      cases htg : u.telegram_user_id with
      | none => exact ⟨[], by simp [processRow, hf, htg, expire_membership]⟩
      | some tg =>
          cases hb : env.banOk r.chat_id tg with
          | true =>
              refine ⟨[{ action := "BAN_MEMBER", telegram_user_id := some tg, chat_id := some r.chat_id }], ?_⟩
              simp [processRow, hf, htg, ban_member, hb, expire_membership,
                log_audit, recordCall]
          | false =>
              refine ⟨[{ action := "BAN_MEMBER_ERROR", telegram_user_id := some tg, chat_id := some r.chat_id }], ?_⟩
              simp [processRow, hf, htg, ban_member, hb, log_audit, recordCall]

/-- Folding `processRow` over rows never touches the user collection. -/
theorem foldl_processRow_users (env : Env) (now : Nat) :
    ∀ (rows : List MembershipDoc) (st : St),
      (rows.foldl (processRow env now) st).users = st.users := by
  intro rows
  induction rows with
  | nil => intro st; rfl
  | cons r rs ih =>
      intro st
      rw [List.foldl_cons, ih, processRow_users]

/-- Folding `processRow` preserves the membership id sequence. -/
theorem foldl_processRow_memids (env : Env) (now : Nat) :
    ∀ (rows : List MembershipDoc) (st : St),
      (rows.foldl (processRow env now) st).memberships.map (fun v => v.id) =
        st.memberships.map (fun v => v.id) := by
  intro rows
  induction rows with
  | nil => intro st; rfl
  | cons r rs ih =>
      intro st
      rw [List.foldl_cons, ih, processRow_memids]

/-- Folding `processRow` over rows with other ids leaves a status
unchanged. -/
theorem foldl_processRow_status_ne (env : Env) (now : Nat) (mid : Nat) :
    ∀ (rows : List MembershipDoc) (st : St), (∀ r ∈ rows, r.id ≠ mid) →
      statusOf (rows.foldl (processRow env now) st) mid = statusOf st mid := by
  intro rows
  induction rows with
  | nil => intro st _; rfl
  | cons r rs ih =>
      intro st hall
      rw [List.foldl_cons, ih _ (fun r' hr' => hall r' (List.mem_cons_of_mem r hr')),
        processRow_status_ne env now st r mid (hall r (List.mem_cons_self r rs))]

/-- Folding `processRow` only appends audit entries. -/
theorem foldl_processRow_audits_mono (env : Env) (now : Nat) :
    ∀ (rows : List MembershipDoc) (st : St),
      ∃ l, (rows.foldl (processRow env now) st).audits = st.audits ++ l := by
  intro rows
  induction rows with
  | nil => intro st; exact ⟨[], by simp⟩
  | cons r rs ih =>
      intro st
      obtain ⟨l1, h1⟩ := processRow_audits_mono env now st r
      obtain ⟨l2, h2⟩ := ih (processRow env now st r)
      exact ⟨l1 ++ l2, by rw [List.foldl_cons, h2, h1, List.append_assoc]⟩

/-- The reconciliation pass seen through `statusOf`: the watermark write
and the `SCHEDULER_RUN` audit entry do not touch memberships. -/
theorem statusOf_process_expired (env : Env) (now : Nat) (st : St) (mid : Nat) :
    statusOf (process_expired_memberships env now st) mid =
      statusOf ((find_expired_memberships st now).foldl (processRow env now) st) mid := rfl

/-- The audit list of the reconciliation pass. -/
theorem audits_process_expired (env : Env) (now : Nat) (st : St) :
    (process_expired_memberships env now st).audits =
      ((find_expired_memberships st now).foldl (processRow env now) st).audits ++
        [{ action := "SCHEDULER_RUN" }] := rfl

/-- Specialisation of `find?_id_of_nodup_mem` to memberships. -/
theorem find?_memId_of_nodup_mem (l : List MembershipDoc) (c : MembershipDoc)
    (hmem : c ∈ l) (hn : (l.map (fun v => v.id)).Nodup) :
    l.find? (fun v => v.id == c.id) = some c :=
  find?_id_of_nodup_mem (fun a => a.id) l c hmem hn

/-- C1: in a reconciliation pass, a lapsed membership whose user resolves
to a platform account but whose remote ban fails keeps status `active`
(it will be retried next pass) while a `BAN_MEMBER_ERROR` audit entry is
recorded; and the failure does not prevent any other lapsed row of the
batch from being processed: every other lapsed row that resolves and
whose ban succeeds ends the pass expired. -/
theorem scheduler_ban_failure_keeps_membership_active
    (env : Env) (now : Nat) (st : St) (m : MembershipDoc) (u : UserDoc) (tg : Int)
    (hmem : m ∈ st.memberships) (hact : m.status = MStatus.active)
    (hlap : m.current_period_end ≤ (now : Int))
    (hnodup : (st.memberships.map (fun v => v.id)).Nodup)
    (hu : st.users.find? (fun v => v.id == m.user_id) = some u)
    (htg : u.telegram_user_id = some tg)
    (hban : env.banOk m.chat_id tg = false) :
    statusOf (process_expired_memberships env now st) m.id = some MStatus.active ∧
    ({ action := "BAN_MEMBER_ERROR", telegram_user_id := some tg, chat_id := some m.chat_id } : AuditDoc) ∈
      (process_expired_memberships env now st).audits ∧
    ∀ m' ∈ st.memberships, m'.status = MStatus.active →
      m'.current_period_end ≤ (now : Int) → m'.id ≠ m.id →
      ∀ u' tg', st.users.find? (fun v => v.id == m'.user_id) = some u' →
        u'.telegram_user_id = some tg' → env.banOk m'.chat_id tg' = true →
        statusOf (process_expired_memberships env now st) m'.id = some MStatus.expired := by
  have hrowsub : List.Sublist ((find_expired_memberships st now).map (fun v => v.id))
      (st.memberships.map (fun v => v.id)) :=
    (List.filter_sublist st.memberships).map (fun v => v.id)
  have hrnodup : ((find_expired_memberships st now).map (fun v => v.id)).Nodup :=
    hnodup.sublist hrowsub
  have hmrows : m ∈ find_expired_memberships st now :=
    List.mem_filter.mpr ⟨hmem, by simp [hact, hlap]⟩
  obtain ⟨l1, l2, hsplit⟩ := List.append_of_mem hmrows
  have hrn2 : ((l1 ++ m :: l2).map (fun v => v.id)).Nodup := by
    rw [← hsplit]; exact hrnodup
  have hsplitids := nodup_split_ne (l1.map (fun v => v.id))
    (l2.map (fun v => v.id)) m.id (by simpa using hrn2)
  have hl1 : ∀ r ∈ l1, r.id ≠ m.id :=
    fun r hr => hsplitids.1 _ (List.mem_map_of_mem _ hr)
  have hl2 : ∀ r ∈ l2, r.id ≠ m.id :=
    fun r hr => hsplitids.2 _ (List.mem_map_of_mem _ hr)
  have hfold : (find_expired_memberships st now).foldl (processRow env now) st =
      l2.foldl (processRow env now)
        (processRow env now (l1.foldl (processRow env now) st) m) := by
    rw [hsplit, List.foldl_append, List.foldl_cons]
  have h1u : (l1.foldl (processRow env now) st).users = st.users :=
    foldl_processRow_users env now l1 st
  have hfind1 : (l1.foldl (processRow env now) st).users.find?
      (fun v => v.id == m.user_id) = some u := by
    rw [h1u]; exact hu
  have hst2 : processRow env now (l1.foldl (processRow env now) st) m =
      log_audit (recordCall (l1.foldl (processRow env now) st)
          (RemoteCall.banChatMember m.chat_id tg))
        { action := "BAN_MEMBER_ERROR", telegram_user_id := some tg, chat_id := some m.chat_id } := by
    simp [processRow, hfind1, htg, ban_member, hban]
  have hstatm : statusOf st m.id = some MStatus.active := by
    unfold statusOf
    rw [find?_memId_of_nodup_mem st.memberships m hmem hnodup]
    simp [hact]
  refine ⟨?_, ?_, ?_⟩
  · rw [statusOf_process_expired, hfold,
      foldl_processRow_status_ne env now m.id l2 _ hl2, hst2]
    have hskip : statusOf (log_audit (recordCall (l1.foldl (processRow env now) st)
        (RemoteCall.banChatMember m.chat_id tg))
        { action := "BAN_MEMBER_ERROR", telegram_user_id := some tg, chat_id := some m.chat_id }) m.id =
        statusOf (l1.foldl (processRow env now) st) m.id := rfl
    rw [hskip, foldl_processRow_status_ne env now m.id l1 st hl1, hstatm]
  · rw [audits_process_expired, hfold]
    obtain ⟨l3, h3⟩ := foldl_processRow_audits_mono env now l2
      (processRow env now (l1.foldl (processRow env now) st) m)
    rw [h3, hst2]
    have hskip : (log_audit (recordCall (l1.foldl (processRow env now) st)
        (RemoteCall.banChatMember m.chat_id tg))
        { action := "BAN_MEMBER_ERROR", telegram_user_id := some tg, chat_id := some m.chat_id }).audits =
        (l1.foldl (processRow env now) st).audits ++
          [{ action := "BAN_MEMBER_ERROR", telegram_user_id := some tg, chat_id := some m.chat_id }] := rfl
    rw [hskip]
    simp
  · intro m' hm' hact' hlap' hne u' tg' hu' htg' hban'
    have hmrows' : m' ∈ find_expired_memberships st now :=
      List.mem_filter.mpr ⟨hm', by simp [hact', hlap']⟩
    obtain ⟨k1, k2, hsplit'⟩ := List.append_of_mem hmrows'
    have hrn2' : ((k1 ++ m' :: k2).map (fun v => v.id)).Nodup := by
      rw [← hsplit']; exact hrnodup
    have hsplitids' := nodup_split_ne (k1.map (fun v => v.id))
      (k2.map (fun v => v.id)) m'.id (by simpa using hrn2')
    have hk2 : ∀ r ∈ k2, r.id ≠ m'.id :=
      fun r hr => hsplitids'.2 _ (List.mem_map_of_mem _ hr)
    have hfold' : (find_expired_memberships st now).foldl (processRow env now) st =
        k2.foldl (processRow env now)
          (processRow env now (k1.foldl (processRow env now) st) m') := by
      rw [hsplit', List.foldl_append, List.foldl_cons]
    have h1u' : (k1.foldl (processRow env now) st).users = st.users :=
      foldl_processRow_users env now k1 st
    have hfind1' : (k1.foldl (processRow env now) st).users.find?
        (fun v => v.id == m'.user_id) = some u' := by
      rw [h1u']; exact hu'
    have hst2' : processRow env now (k1.foldl (processRow env now) st) m' =
        expire_membership now
          (log_audit (recordCall (k1.foldl (processRow env now) st)
              (RemoteCall.banChatMember m'.chat_id tg'))
            { action := "BAN_MEMBER", telegram_user_id := some tg', chat_id := some m'.chat_id })
          m'.id := by
      simp [processRow, hfind1', htg', ban_member, hban']
    have hids' : (k1.foldl (processRow env now) st).memberships.map (fun v => v.id) =
        st.memberships.map (fun v => v.id) :=
      foldl_processRow_memids env now k1 st
    have hex : ((log_audit (recordCall (k1.foldl (processRow env now) st)
        (RemoteCall.banChatMember m'.chat_id tg'))
        { action := "BAN_MEMBER", telegram_user_id := some tg', chat_id := some m'.chat_id }).memberships.find?
        (fun v => v.id == m'.id)).isSome := by
      rw [List.find?_isSome]
      have hidmem : m'.id ∈ (k1.foldl (processRow env now) st).memberships.map
          (fun v => v.id) := by
        rw [hids']
        exact List.mem_map_of_mem _ hm'
      obtain ⟨x, hx, hxe⟩ := List.mem_map.mp hidmem
      exact ⟨x, hx, by simp [hxe]⟩
    rw [statusOf_process_expired, hfold',
      foldl_processRow_status_ne env now m'.id k2 _ hk2, hst2']
    exact statusOf_expire_membership_self now _ m'.id hex

/-- User whose ban will fail in the C1 witness. -/
def userF1 : UserDoc :=
  { id := 1, ext_user_id := "f", telegram_user_id := some 500,
    telegram_username := none, created_at := 0, updated_at := 0 }

/-- User whose ban will succeed in the C1 witness. -/
def userS1 : UserDoc :=
  { id := 2, ext_user_id := "s", telegram_user_id := some 600,
    telegram_username := none, created_at := 0, updated_at := 0 }

/-- Lapsed membership whose ban fails in the C1 witness. -/
def memF1 : MembershipDoc :=
  { id := 10, user_id := 1, chat_id := -50, status := MStatus.active,
    current_period_end := 50, created_at := 0, updated_at := 0 }

/-- Lapsed membership whose ban succeeds in the C1 witness. -/
def memS1 : MembershipDoc :=
  { id := 11, user_id := 2, chat_id := -60, status := MStatus.active,
    current_period_end := 60, created_at := 0, updated_at := 0 }

/-- State of the C1 witness. -/
def stW1 : St := { users := [userF1, userS1], memberships := [memF1, memS1] }

/-- Environment of the C1 witness: the remote ban fails for chat `-50`
and succeeds for chat `-60`. -/
def envC1 : Env :=
  { invite_ttl_default := 3600, invite_limit_default := 1,
    createInvite := fun _ => CreateInviteOutcome.ok "INV",
    revokeRaises := fun _ _ => false, approveRaises := fun _ _ => false,
    declineRaises := fun _ _ => false, banOk := fun chat _ => chat == (-60 : Int),
    unbanResult := fun _ _ => some true }

/-- Witness for C1: with two lapsed memberships, the row whose remote ban
fails stays active with a `BAN_MEMBER_ERROR` audit entry, while the other
row of the same batch is still banned and expired. -/
theorem scheduler_ban_failure_keeps_membership_active_witness :
    statusOf (process_expired_memberships envC1 100 stW1) memF1.id =
        some MStatus.active ∧
      ({ action := "BAN_MEMBER_ERROR", telegram_user_id := some 500, chat_id := some memF1.chat_id } : AuditDoc) ∈
        (process_expired_memberships envC1 100 stW1).audits ∧
      statusOf (process_expired_memberships envC1 100 stW1) memS1.id =
        some MStatus.expired :=
  have t := scheduler_ban_failure_keeps_membership_active envC1 100 stW1
    memF1 userF1 500 (by decide) rfl (by decide) (by decide) (by decide) rfl
    (by decide)
  ⟨t.1, t.2.1,
    t.2.2 memS1 (by decide) rfl (by decide) (by decide) userS1 600 (by decide)
      rfl (by decide)⟩

/-- A row whose user document is missing or unlinked is processed as a
bare expiry: no remote call, no audit entry, no invite lookup. -/
theorem processRow_unresolved (env : Env) (now : Nat) (st : St) (r : MembershipDoc)
    (h : st.users.find? (fun v => v.id == r.user_id) = none ∨
      ∃ u, st.users.find? (fun v => v.id == r.user_id) = some u ∧
        u.telegram_user_id = none) :
    processRow env now st r = expire_membership now st r.id := by
  rcases h with h | ⟨u, hu, htg⟩
  · simp [processRow, h]
  · simp [processRow, hu, htg]

/-- The user of the C4 counterexample: no linked platform account. -/
def userC4 : UserDoc :=
  { id := 1, ext_user_id := "u1", telegram_user_id := none,
    telegram_username := none, created_at := 0, updated_at := 0 }

/-- The lapsed membership of the C4 counterexample. -/
def memC4 : MembershipDoc :=
  { id := 10, user_id := 1, chat_id := -100, status := MStatus.active,
    current_period_end := 50, created_at := 0, updated_at := 0 }

/-- A used invite of the C4 counterexample that records which platform
account used it: the §4.4-style fallback would resolve the ban target
from it. -/
def invC4 : InviteDoc :=
  { id := 20, user_id := 1, chat_id := -100, invite_link := "L",
    expire_at := 1000, member_limit := 1, used := true, revoked := false,
    used_by_telegram_user_id := some 777, created_at := 5 }

/-- State of the C4 counterexample. -/
def stC4 : St := { users := [userC4], memberships := [memC4], invites := [invC4] }

/-- C4 counterexample: the user has no linked platform account, but a
used invite for the same `(user, chat)` records the account that used it
— the claimed attribution fallback would resolve it.  The scheduler
nevertheless expires the membership without issuing any remote call at
all: the claim that it attempts the fallback before giving up is false
on this input. -/
theorem scheduler_no_attribution_fallback_counterexample :
    (∃ i ∈ stC4.invites, i.user_id = memC4.user_id ∧ i.chat_id = memC4.chat_id ∧
      i.used = true ∧ i.used_by_telegram_user_id = some 777) ∧
      statusOf (process_expired_memberships envC1 100 stC4) memC4.id =
        some MStatus.expired ∧
      (process_expired_memberships envC1 100 stC4).calls = [] := by
  refine ⟨⟨invC4, by decide, by decide, by decide, by decide, by decide⟩, by decide, by decide⟩

/-- C4 (amended): for every lapsed membership whose user document is
missing or has no linked platform account id, the scheduler immediately
marks the membership expired without issuing a ban and without any
invite-attribution fallback (the row's processing is exactly the expiry
update), and the batch continues. -/
theorem scheduler_unlinked_user_expired_without_ban
    (env : Env) (now : Nat) (st : St) (m : MembershipDoc)
    (hmem : m ∈ st.memberships) (hact : m.status = MStatus.active)
    (hlap : m.current_period_end ≤ (now : Int))
    (hnodup : (st.memberships.map (fun v => v.id)).Nodup)
    (hres : st.users.find? (fun v => v.id == m.user_id) = none ∨
      ∃ u, st.users.find? (fun v => v.id == m.user_id) = some u ∧
        u.telegram_user_id = none) :
    processRow env now st m = expire_membership now st m.id ∧
      statusOf (process_expired_memberships env now st) m.id = some MStatus.expired := by
  have hrowsub : List.Sublist ((find_expired_memberships st now).map (fun v => v.id))
      (st.memberships.map (fun v => v.id)) :=
    (List.filter_sublist st.memberships).map (fun v => v.id)
  have hrnodup : ((find_expired_memberships st now).map (fun v => v.id)).Nodup :=
    hnodup.sublist hrowsub
  have hmrows : m ∈ find_expired_memberships st now :=
    List.mem_filter.mpr ⟨hmem, by simp [hact, hlap]⟩
  obtain ⟨l1, l2, hsplit⟩ := List.append_of_mem hmrows
  have hrn2 : ((l1 ++ m :: l2).map (fun v => v.id)).Nodup := by
    rw [← hsplit]; exact hrnodup
  have hsplitids := nodup_split_ne (l1.map (fun v => v.id))
    (l2.map (fun v => v.id)) m.id (by simpa using hrn2)
  have hl2 : ∀ r ∈ l2, r.id ≠ m.id :=
    fun r hr => hsplitids.2 _ (List.mem_map_of_mem _ hr)
  have hfold : (find_expired_memberships st now).foldl (processRow env now) st =
      l2.foldl (processRow env now)
        (processRow env now (l1.foldl (processRow env now) st) m) := by
    rw [hsplit, List.foldl_append, List.foldl_cons]
  have h1u : (l1.foldl (processRow env now) st).users = st.users :=
    foldl_processRow_users env now l1 st
  have hres1 : (l1.foldl (processRow env now) st).users.find?
      (fun v => v.id == m.user_id) = none ∨
      ∃ u, (l1.foldl (processRow env now) st).users.find?
        (fun v => v.id == m.user_id) = some u ∧ u.telegram_user_id = none := by
    rw [h1u]; exact hres
  have hst2 : processRow env now (l1.foldl (processRow env now) st) m =
      expire_membership now (l1.foldl (processRow env now) st) m.id :=
    processRow_unresolved env now _ m hres1
  have hids1 : (l1.foldl (processRow env now) st).memberships.map (fun v => v.id) =
      st.memberships.map (fun v => v.id) :=
    foldl_processRow_memids env now l1 st
  have hex : ((l1.foldl (processRow env now) st).memberships.find?
      (fun v => v.id == m.id)).isSome := by
    rw [List.find?_isSome]
    have hidmem : m.id ∈ (l1.foldl (processRow env now) st).memberships.map
        (fun v => v.id) := by
      rw [hids1]
      exact List.mem_map_of_mem _ hmem
    obtain ⟨x, hx, hxe⟩ := List.mem_map.mp hidmem
    exact ⟨x, hx, by simp [hxe]⟩
  refine ⟨processRow_unresolved env now st m hres, ?_⟩
  rw [statusOf_process_expired, hfold,
    foldl_processRow_status_ne env now m.id l2 _ hl2, hst2]
  exact statusOf_expire_membership_self now _ m.id hex

/-- Witness for C4's amended theorem, at the counterexample state: the
row is processed as a bare expiry and ends the pass expired. -/
theorem scheduler_unlinked_user_expired_without_ban_witness :
    (processRow envC1 100 stC4 memC4 = expire_membership 100 stC4 memC4.id) ∧
      statusOf (process_expired_memberships envC1 100 stC4) memC4.id =
        some MStatus.expired :=
  scheduler_unlinked_user_expired_without_ban envC1 100 stC4 memC4
    (by decide) rfl (by decide) (by decide)
    (Or.inr ⟨userC4, by decide, rfl⟩)

/-- C3: auto-attribution.  On a member-joined transition for a platform
account linked to no user, the heuristic candidate is an eligible
(unused, non-revoked, unexpired) invite of the chat with maximal creation
time; when its owning user has a non-empty external id, that user is
linked to the joining account and the candidate invite is marked used,
while every other invite's record is untouched. -/
theorem auto_attribution_latest_invite (now : Nat) (st : St) (chat tg : Int)
    (username : Option String) (old_status new_status : String)
    (cand : InviteDoc) (owner : UserDoc)
    (hjoin : (["left", "kicked"].contains old_status &&
      ["member", "administrator", "creator"].contains new_status) = true)
    (hun : get_user_by_telegram_id st tg = none)
    (hcand : candidateInvite now st chat = some cand)
    (howner : st.users.find? (fun v => v.id == cand.user_id) = some owner)
    (hext : (owner.ext_user_id != "") = true)
    (hfirst : st.users.find? (fun v => v.ext_user_id == owner.ext_user_id) = some owner)
    (hunodup : (st.users.map (fun v => v.id)).Nodup)
    (hinodup : (st.invites.map (fun i => i.id)).Nodup)
    (hlinkfirst : st.invites.find?
      (fun i => i.invite_link == cand.invite_link && i.chat_id == chat) = some cand) :
    (inviteEligible now chat cand = true ∧
      ∀ i ∈ st.invites, inviteEligible now chat i = true →
        i.created_at ≤ cand.created_at) ∧
    ((handle_chat_member now st chat tg username old_status new_status).users.find?
        (fun v => v.id == owner.id)).map (fun v => v.telegram_user_id) =
      some (some tg) ∧
    ((handle_chat_member now st chat tg username old_status new_status).invites.find?
        (fun i => i.id == cand.id)).map (fun i => i.used) = some true ∧
    ∀ j ∈ st.invites, j.id ≠ cand.id →
      (handle_chat_member now st chat tg username old_status new_status).invites.find?
          (fun i => i.id == j.id) =
        st.invites.find? (fun i => i.id == j.id) := by
  have hlink := link_telegram_user_of_found now st owner.ext_user_id tg username
    owner hfirst
  have hjoinP : (old_status = "left" ∨ old_status = "kicked") ∧
      (new_status = "member" ∨ new_status = "administrator" ∨
        new_status = "creator") := by
    simpa using hjoin
  have husers : (handle_chat_member now st chat tg username old_status new_status).users =
      updateFirst (fun v => v.id == owner.id) (linkUpd now tg username) st.users := by
    simp [handle_chat_member, hjoinP, hun, hcand, howner, hext, hlink,
      mark_invite_used, log_audit]
  have hinvs : (handle_chat_member now st chat tg username old_status new_status).invites =
      updateFirst (fun i => i.invite_link == cand.invite_link && i.chat_id == chat)
        (fun i => { i with used := true }) st.invites := by
    simp [handle_chat_member, hjoinP, hun, hcand, howner, hext, hlink,
      mark_invite_used, log_audit]
  refine ⟨candidateInvite_spec now st chat cand hcand, ?_, ?_, ?_⟩
  · rw [husers, find?_userId_updateFirst_self (linkUpd now tg username)
      (fun a => rfl) st.users owner.id,
      find?_userId_of_nodup_mem st.users owner
        (List.mem_of_find?_eq_some hfirst) hunodup]
    rfl
  · rw [hinvs, find?_invId_updateFirst_self
      (fun i => i.invite_link == cand.invite_link && i.chat_id == chat)
      (fun i => { i with used := true }) (fun a => rfl) st.invites cand
      hlinkfirst hinodup]
    rfl
  · intro j hj hne
    rw [hinvs]
    exact find?_invId_updateFirst_of_find
      (fun i => i.invite_link == cand.invite_link && i.chat_id == chat)
      (fun i => { i with used := true }) (fun a => rfl) st.invites cand j.id
      hlinkfirst hne.symm

/-- First buyer of the C3 witness (invite created at T1). -/
def userA3 : UserDoc :=
  { id := 1, ext_user_id := "buyer-a", telegram_user_id := none,
    telegram_username := none, created_at := 0, updated_at := 0 }

/-- Second buyer of the C3 witness (invite created at T2 > T1). -/
def userB3 : UserDoc :=
  { id := 2, ext_user_id := "buyer-b", telegram_user_id := none,
    telegram_username := none, created_at := 0, updated_at := 0 }

/-- Invite created at T1 = 10:00:00 (36000 s) for `userA3`. -/
def invA3 : InviteDoc :=
  { id := 10, user_id := 1, chat_id := -100111, invite_link := "LA",
    expire_at := 90000, member_limit := 1, used := false, revoked := false,
    used_by_telegram_user_id := none, created_at := 36000 }

/-- Invite created at T2 = 10:00:05 (36005 s) for `userB3`. -/
def invB3 : InviteDoc :=
  { id := 11, user_id := 2, chat_id := -100111, invite_link := "LB",
    expire_at := 90000, member_limit := 1, used := false, revoked := false,
    used_by_telegram_user_id := none, created_at := 36005 }

/-- State of the C3 witness: two outstanding invites for the same chat. -/
def stW3 : St := { users := [userA3, userB3], invites := [invA3, invB3] }

/-- Witness for C3, with the spec's literal timestamps: invites at
10:00:00 and 10:00:05, join event at 10:00:10 from the unlinked account
777.  The heuristic selects the T2 invite, links its owner `buyer-b` to
777, marks it used, and the T1 invite's record — in particular its
`used = false` flag — is untouched. -/
theorem auto_attribution_latest_invite_witness :
    candidateInvite 36010 stW3 (-100111) = some invB3 ∧
      ((handle_chat_member 36010 stW3 (-100111) 777 (some "bob") "left"
          "member").users.find? (fun v => v.id == userB3.id)).map
        (fun v => v.telegram_user_id) = some (some 777) ∧
      ((handle_chat_member 36010 stW3 (-100111) 777 (some "bob") "left"
          "member").invites.find? (fun i => i.id == invB3.id)).map
        (fun i => i.used) = some true ∧
      (handle_chat_member 36010 stW3 (-100111) 777 (some "bob") "left"
          "member").invites.find? (fun i => i.id == invA3.id) =
        stW3.invites.find? (fun i => i.id == invA3.id) :=
  have t := auto_attribution_latest_invite 36010 stW3 (-100111) 777 (some "bob")
    "left" "member" invB3 userB3 (by decide) (by decide) (by decide) (by decide)
    (by decide) (by decide) (by decide) (by decide) (by decide)
  ⟨by decide, t.2.1, t.2.2.1, t.2.2.2 invA3 (by decide) (by decide)⟩

/-- `upsert_user` never touches channels or the call log. -/
theorem upsert_user_channels_calls (now : Nat) (st : St) (x : String) :
    (upsert_user now st x).1.channels = st.channels ∧
      (upsert_user now st x).1.calls = st.calls := by
  cases hf : st.users.find? (fun v => v.ext_user_id == x) with
  | none => exact ⟨by simp [upsert_user, hf, log_audit], by simp [upsert_user, hf, log_audit]⟩
  | some u => exact ⟨by simp [upsert_user, hf], by simp [upsert_user, hf]⟩

/-- When the user exists, `upsert_user` returns the found document with a
refreshed timestamp. -/
theorem upsert_user_snd_of_found (now : Nat) (st : St) (x : String) (u : UserDoc)
    (h : st.users.find? (fun v => v.ext_user_id == x) = some u) :
    (upsert_user now st x).2 = { u with updated_at := now } := by
  simp [upsert_user, h]

/-- `upsert_membership` never touches channels or the call log and only
appends audit entries. -/
theorem upsert_membership_fields (now : Nat) (st : St) (uid : Nat) (chat : Int)
    (p : Int) (s : MStatus) :
    (upsert_membership now st uid chat p s).1.channels = st.channels ∧
      (upsert_membership now st uid chat p s).1.calls = st.calls ∧
      ∃ a, (upsert_membership now st uid chat p s).1.audits = st.audits ++ a := by
  cases hf : st.memberships.find? (fun v => v.user_id == uid && v.chat_id == chat) with
  | none =>
      refine ⟨by simp [upsert_membership, hf, log_audit],
        by simp [upsert_membership, hf, log_audit],
        ⟨[{ action := "CREATE_MEMBERSHIP", user_id := some uid, chat_id := some chat }], ?_⟩⟩
      simp [upsert_membership, hf, log_audit]
  | some m =>
      refine ⟨by simp [upsert_membership, hf, log_audit],
        by simp [upsert_membership, hf, log_audit],
        ⟨[{ action := "UPDATE_MEMBERSHIP", user_id := some uid, chat_id := some chat }], ?_⟩⟩
      simp [upsert_membership, hf, log_audit]

/-- `unban_member` preserves channels, appends exactly the
`only_if_banned` unban call, and appends one audit entry. -/
theorem unban_member_fields (env : Env) (st : St) (c t : Int) :
    (unban_member env st c t).1.channels = st.channels ∧
      (unban_member env st c t).1.calls =
        st.calls ++ [RemoteCall.unbanChatMember c t true] ∧
      ∃ a, (unban_member env st c t).1.audits = st.audits ++ a := by
  cases hub : env.unbanResult c t with
  | none =>
      refine ⟨by simp [unban_member, hub, log_audit, recordCall],
        by simp [unban_member, hub, log_audit, recordCall],
        ⟨[{ action := "UNBAN_MEMBER_ERROR", telegram_user_id := some t, chat_id := some c }], ?_⟩⟩
      simp [unban_member, hub, log_audit, recordCall]
  | some ok =>
      refine ⟨by simp [unban_member, hub, log_audit, recordCall],
        by simp [unban_member, hub, log_audit, recordCall],
        ⟨[{ action := "UNBAN_MEMBER", telegram_user_id := some t, chat_id := some c }], ?_⟩⟩
      simp [unban_member, hub, log_audit, recordCall]

/-- `create_invite_link` with an explicit channel preserves channels and
only appends calls and audit entries. -/
theorem create_invite_link_fields (env : Env) (now : Nat) (st : St) (uid : Nat)
    (c : Int) (ch : ChannelDoc) :
    (create_invite_link env now st uid c (some ch)).1.channels = st.channels ∧
      (∃ a, (create_invite_link env now st uid c (some ch)).1.calls = st.calls ++ a) ∧
      ∃ a, (create_invite_link env now st uid c (some ch)).1.audits = st.audits ++ a := by
  cases hco : env.createInvite c with
  | raised =>
      refine ⟨by simp [create_invite_link, hco, log_audit, recordCall],
        ⟨[RemoteCall.createChatInviteLink c ((now : Int) + ((ch.invite_ttl_seconds.getD env.invite_ttl_default : Nat) : Int)) (ch.invite_member_limit.getD env.invite_limit_default)], by simp [create_invite_link, hco, log_audit, recordCall]⟩,
        ⟨[{ action := "CREATE_INVITE_ERROR", user_id := some uid, chat_id := some c }], ?_⟩⟩
      simp [create_invite_link, hco, log_audit, recordCall]
  | noLink =>
      refine ⟨by simp [create_invite_link, hco, log_audit, recordCall],
        ⟨[RemoteCall.createChatInviteLink c ((now : Int) + ((ch.invite_ttl_seconds.getD env.invite_ttl_default : Nat) : Int)) (ch.invite_member_limit.getD env.invite_limit_default)], by simp [create_invite_link, hco, log_audit, recordCall]⟩,
        ⟨[], ?_⟩⟩
      simp [create_invite_link, hco, log_audit, recordCall]
  | ok link =>
      refine ⟨by simp [create_invite_link, hco, log_audit, recordCall],
        ⟨[RemoteCall.createChatInviteLink c ((now : Int) + ((ch.invite_ttl_seconds.getD env.invite_ttl_default : Nat) : Int)) (ch.invite_member_limit.getD env.invite_limit_default)], by simp [create_invite_link, hco, log_audit, recordCall]⟩,
        ⟨[{ action := "CREATE_INVITE", user_id := some uid, chat_id := some c }], ?_⟩⟩
      simp [create_invite_link, hco, log_audit, recordCall]

/-- One iteration of the grant loop: channels are preserved, calls and
audit entries only grow, and any invite or error entries added carry the
iteration's chat id. -/
theorem grantChatStep_effects (env : Env) (now : Nat) (user : UserDoc) (pe : Int)
    (st : St) (inv err : List (Int × String)) (c : Int) :
    (grantChatStep env now user pe (st, inv, err) c).1.channels = st.channels ∧
      (∃ a, (grantChatStep env now user pe (st, inv, err) c).1.calls = st.calls ++ a) ∧
      (∃ a, (grantChatStep env now user pe (st, inv, err) c).2.1 = inv ++ a ∧
        ∀ e ∈ a, e.1 = c) ∧
      (∃ a, (grantChatStep env now user pe (st, inv, err) c).2.2 = err ++ a ∧
        ∀ e ∈ a, e.1 = c) ∧
      ∃ a, (grantChatStep env now user pe (st, inv, err) c).1.audits = st.audits ++ a := by
  cases hch : get_channel st c with
  | none =>
      refine ⟨by simp [grantChatStep, hch], ⟨[], by simp [grantChatStep, hch]⟩,
        ⟨[], by simp [grantChatStep, hch], by simp⟩,
        ⟨[(c, "CHANNEL_NOT_FOUND")], by simp [grantChatStep, hch], by simp⟩,
        ⟨[], by simp [grantChatStep, hch]⟩⟩
  | some ch =>
      rcases hup : upsert_membership now st user.id c pe MStatus.active with ⟨stm, mdoc⟩
      have hm := upsert_membership_fields now st user.id c pe MStatus.active
      rw [hup] at hm
      obtain ⟨hmch, hmca, a0, hmau⟩ := hm
      have hstU : ∀ stU : St,
          (stU = match user.telegram_user_id with
            | some t => (unban_member env stm c t).1
            | none => stm) →
          stU.channels = st.channels ∧ (∃ a, stU.calls = st.calls ++ a) ∧
            ∃ a, stU.audits = st.audits ++ a := by
        intro stU hdef
        cases htg : user.telegram_user_id with
        | none =>
            rw [htg] at hdef
            exact ⟨hdef ▸ hmch, ⟨[], by rw [hdef, hmca, List.append_nil]⟩,
              ⟨a0, by rw [hdef, hmau]⟩⟩
        | some t =>
            rw [htg] at hdef
            obtain ⟨hbc, hbl, a1, hba⟩ := unban_member_fields env stm c t
            refine ⟨by rw [hdef, hbc, hmch],
              ⟨[RemoteCall.unbanChatMember c t true], by rw [hdef, hbl, hmca]⟩,
              ⟨a0 ++ a1, by rw [hdef, hba, hmau, List.append_assoc]⟩⟩
      obtain ⟨hUch, ⟨a2, hUca⟩, a3, hUau⟩ :=
        hstU (match user.telegram_user_id with
          | some t => (unban_member env stm c t).1
          | none => stm) rfl
      cases hjm : (ch.join_model == "invite_link") with
      | false =>
          refine ⟨by simp [grantChatStep, hch, hup, hjm]; exact hUch,
            ⟨a2, by simp [grantChatStep, hch, hup, hjm]; exact hUca⟩,
            ⟨[(c, "join_request_model")], by simp [grantChatStep, hch, hup, hjm], by simp⟩,
            ⟨[], by simp [grantChatStep, hch, hup, hjm]⟩,
            ⟨a3, by simp [grantChatStep, hch, hup, hjm]; exact hUau⟩⟩
      | true =>
          rcases hcr : create_invite_link env now
            (match user.telegram_user_id with
              | some t => (unban_member env stm c t).1
              | none => stm) user.id c (some ch) with ⟨stC, o⟩
          have hcf := create_invite_link_fields env now
            (match user.telegram_user_id with
              | some t => (unban_member env stm c t).1
              | none => stm) user.id c ch
          rw [hcr] at hcf
          obtain ⟨hCch, ⟨a4, hCca⟩, a5, hCau⟩ := hcf
          cases o with
          | none =>
              refine ⟨by simp [grantChatStep, hch, hup, hjm, hcr]; rw [hCch]; exact hUch,
                ⟨a2 ++ a4, by simp [grantChatStep, hch, hup, hjm, hcr]; rw [hCca, hUca, List.append_assoc]⟩,
                ⟨[], by simp [grantChatStep, hch, hup, hjm, hcr], by simp⟩,
                ⟨[(c, "INVITE_LINK_CREATION_FAILED")], by simp [grantChatStep, hch, hup, hjm, hcr], by simp⟩,
                ⟨a3 ++ a5, by simp [grantChatStep, hch, hup, hjm, hcr]; rw [hCau, hUau, List.append_assoc]⟩⟩
          | some invd =>
              refine ⟨by simp [grantChatStep, hch, hup, hjm, hcr]; rw [hCch]; exact hUch,
                ⟨a2 ++ a4, by simp [grantChatStep, hch, hup, hjm, hcr]; rw [hCca, hUca, List.append_assoc]⟩,
                ⟨[(c, invd.invite_link)], by simp [grantChatStep, hch, hup, hjm, hcr], by simp⟩,
                ⟨[], by simp [grantChatStep, hch, hup, hjm, hcr], by simp⟩,
                ⟨a3 ++ a5, by simp [grantChatStep, hch, hup, hjm, hcr]; rw [hCau, hUau, List.append_assoc]⟩⟩

/-- Folding the grant loop: channels are preserved, calls and audit
entries only grow, and all invite/error entries added carry chat ids
from the processed list. -/
theorem grantFold_effects (env : Env) (now : Nat) (user : UserDoc) (pe : Int) :
    ∀ (l : List Int) (st : St) (inv err : List (Int × String)),
      ((l.foldl (grantChatStep env now user pe) (st, inv, err)).1.channels = st.channels) ∧
        (∃ a, (l.foldl (grantChatStep env now user pe) (st, inv, err)).1.calls =
          st.calls ++ a) ∧
        (∃ a, (l.foldl (grantChatStep env now user pe) (st, inv, err)).2.1 =
          inv ++ a ∧ ∀ e ∈ a, e.1 ∈ l) ∧
        (∃ a, (l.foldl (grantChatStep env now user pe) (st, inv, err)).2.2 =
          err ++ a ∧ ∀ e ∈ a, e.1 ∈ l) ∧
        ∃ a, (l.foldl (grantChatStep env now user pe) (st, inv, err)).1.audits =
          st.audits ++ a := by
  intro l
  induction l with
  | nil =>
      intro st inv err
      exact ⟨rfl, ⟨[], by simp⟩, ⟨[], by simp, by simp⟩, ⟨[], by simp, by simp⟩,
        ⟨[], by simp⟩⟩
  | cons c cs ih =>
      intro st inv err
      rcases hstep : grantChatStep env now user pe (st, inv, err) c with ⟨S1, I1, E1⟩
      have hs := grantChatStep_effects env now user pe st inv err c
      rw [hstep] at hs
      obtain ⟨h1ch, ⟨b1, h1ca⟩, ⟨b2, h1inv, h1invc⟩, ⟨b3, h1err, h1errc⟩, b4, h1au⟩ := hs
      dsimp only at h1ch h1ca h1inv h1err h1au
      have hfold : (c :: cs).foldl (grantChatStep env now user pe) (st, inv, err) =
          cs.foldl (grantChatStep env now user pe) (S1, I1, E1) := by
        rw [List.foldl_cons, hstep]
      obtain ⟨h2ch, ⟨c1, h2ca⟩, ⟨c2, h2inv, h2invc⟩, ⟨c3, h2err, h2errc⟩, c4, h2au⟩ :=
        ih S1 I1 E1
      refine ⟨by rw [hfold, h2ch, h1ch],
        ⟨b1 ++ c1, by rw [hfold, h2ca, h1ca, List.append_assoc]⟩,
        ⟨b2 ++ c2, by rw [hfold, h2inv, h1inv, List.append_assoc], ?_⟩,
        ⟨b3 ++ c3, by rw [hfold, h2err, h1err, List.append_assoc], ?_⟩,
        ⟨b4 ++ c4, by rw [hfold, h2au, h1au, List.append_assoc]⟩⟩
      · intro e he
        rcases List.mem_append.mp he with he | he
        · rw [h1invc e he]; exact List.mem_cons_self c cs
        · exact List.mem_cons_of_mem c (h2invc e he)
      · intro e he
        rcases List.mem_append.mp he with he | he
        · rw [h1errc e he]; exact List.mem_cons_self c cs
        · exact List.mem_cons_of_mem c (h2errc e he)

/-- The grant-loop iteration for a resolved invite-link channel when the
user's account is linked: the `only_if_banned` unban is issued, then the
invite is minted; the failed unban is swallowed (its error is audited)
and the chat still receives its invite link. -/
theorem grantChatStep_at (env : Env) (now : Nat) (user : UserDoc) (pe : Int)
    (st : St) (inv err : List (Int × String)) (c : Int) (ch : ChannelDoc)
    (t : Int) (link : String)
    (hch : get_channel st c = some ch)
    (htg : user.telegram_user_id = some t)
    (hmodel : ch.join_model = "invite_link")
    (hcreate : env.createInvite c = CreateInviteOutcome.ok link)
    (hunban : env.unbanResult c t = none) :
    (grantChatStep env now user pe (st, inv, err) c).2.1 = inv ++ [(c, link)] ∧
      (grantChatStep env now user pe (st, inv, err) c).2.2 = err ∧
      (grantChatStep env now user pe (st, inv, err) c).1.calls = st.calls ++
        [RemoteCall.unbanChatMember c t true,
         RemoteCall.createChatInviteLink c ((now : Int) + ((ch.invite_ttl_seconds.getD env.invite_ttl_default : Nat) : Int)) (ch.invite_member_limit.getD env.invite_limit_default)] ∧
      ({ action := "UNBAN_MEMBER_ERROR", telegram_user_id := some t, chat_id := some c } : AuditDoc) ∈
        (grantChatStep env now user pe (st, inv, err) c).1.audits := by
  rcases hup : upsert_membership now st user.id c pe MStatus.active with ⟨stm, mdoc⟩
  have hm := upsert_membership_fields now st user.id c pe MStatus.active
  rw [hup] at hm
  dsimp only at hm
  obtain ⟨hmch, hmca, a0, hmau⟩ := hm
  have hmb : (ch.join_model == "invite_link") = true := by simp [hmodel]
  refine ⟨?_, ?_, ?_, ?_⟩
  · simp [grantChatStep, hch, hup, htg, hmb, unban_member, hunban,
      create_invite_link, hcreate, log_audit, recordCall]
  · simp [grantChatStep, hch, hup, htg, hmb, unban_member, hunban,
      create_invite_link, hcreate, log_audit, recordCall]
  · simp [grantChatStep, hch, hup, htg, hmb, unban_member, hunban,
      create_invite_link, hcreate, log_audit, recordCall, hmca]
  · simp [grantChatStep, hch, hup, htg, hmb, unban_member, hunban,
      create_invite_link, hcreate, log_audit, recordCall, hmau]

/-- C10: in a grant-access call for a user whose platform account is
already linked, for any chat of the request that resolves to an
invite-link channel, the handler issues a best-effort `only_if_banned`
unban of that account and then mints the invite — the unban call precedes
the invite-creation call — and even when the remote unban raises, the
chat still receives its invite link, no error is reported for it, and an
`UNBAN_MEMBER_ERROR` audit entry is recorded. -/
theorem grant_access_unbans_before_invite
    (env : Env) (now : Nat) (st : St) (ext : String) (l1 l2 : List Int) (c : Int)
    (period_days : Int) (ref : Option String) (u : UserDoc) (t : Int)
    (ch : ChannelDoc) (link : String)
    (hu : st.users.find? (fun v => v.ext_user_id == ext) = some u)
    (htg : u.telegram_user_id = some t)
    (hch : get_channel st c = some ch)
    (hmodel : ch.join_model = "invite_link")
    (hcreate : env.createInvite c = CreateInviteOutcome.ok link)
    (hunban : env.unbanResult c t = none)
    (hc1 : c ∉ l1) (hc2 : c ∉ l2) :
    List.Sublist
        [RemoteCall.unbanChatMember c t true,
         RemoteCall.createChatInviteLink c ((now : Int) + ((ch.invite_ttl_seconds.getD env.invite_ttl_default : Nat) : Int)) (ch.invite_member_limit.getD env.invite_limit_default)]
        (grant_access env now st ext (l1 ++ c :: l2) period_days ref).1.calls ∧
      (c, link) ∈ (grant_access env now st ext (l1 ++ c :: l2) period_days ref).2.invites ∧
      (∀ e ∈ (grant_access env now st ext (l1 ++ c :: l2) period_days ref).2.errors,
        e.1 ≠ c) ∧
      ({ action := "UNBAN_MEMBER_ERROR", telegram_user_id := some t, chat_id := some c } : AuditDoc) ∈
        (grant_access env now st ext (l1 ++ c :: l2) period_days ref).1.audits := by
  rcases hupu : upsert_user now st ext with ⟨stu, user⟩
  have huc := upsert_user_channels_calls now st ext
  rw [hupu] at huc
  dsimp only at huc
  have huser : user = { u with updated_at := now } := by
    have h := upsert_user_snd_of_found now st ext u hu
    rw [hupu] at h
    exact h
  have hutg : user.telegram_user_id = some t := by
    rw [huser]; exact htg
  rcases hfold : (l1 ++ c :: l2).foldl
      (grantChatStep env now user (get_period_end now period_days))
      (stu, ([] : List (Int × String)), ([] : List (Int × String))) with ⟨stf, invf, errf⟩
  have hgr : grant_access env now st ext (l1 ++ c :: l2) period_days ref =
      (log_audit stf { action := "GRANT_ACCESS", user_id := some user.id, ref := ref },
        { user_id := user.id, invites := invf,
          period_end := get_period_end now period_days, errors := errf,
          success := errf.isEmpty }) := by
    simp [grant_access, hupu, hfold]
  rcases hfold1 : l1.foldl
      (grantChatStep env now user (get_period_end now period_days))
      (stu, ([] : List (Int × String)), ([] : List (Int × String))) with ⟨sta, inva, erra⟩
  have hF1 := grantFold_effects env now user (get_period_end now period_days) l1 stu [] []
  rw [hfold1] at hF1
  dsimp only at hF1
  obtain ⟨hach, ⟨d1, haca⟩, ⟨d2, hainv, hainvc⟩, ⟨d3, haerr, haerrc⟩, d4, haau⟩ := hF1
  have hcha : get_channel sta c = some ch := by
    have hc : sta.channels = st.channels := by rw [hach, huc.1]
    unfold get_channel at hch ⊢
    rw [hc]
    exact hch
  have hstep := grantChatStep_at env now user (get_period_end now period_days)
    sta inva erra c ch t link hcha hutg hmodel hcreate hunban
  rcases hstepv : grantChatStep env now user (get_period_end now period_days)
      (sta, inva, erra) c with ⟨stc, invc, errc⟩
  rw [hstepv] at hstep
  dsimp only at hstep
  obtain ⟨hsinv, hserr, hsca, hsau⟩ := hstep
  have hF2 := grantFold_effects env now user (get_period_end now period_days) l2 stc invc errc
  have htot : (l1 ++ c :: l2).foldl
      (grantChatStep env now user (get_period_end now period_days))
      (stu, ([] : List (Int × String)), ([] : List (Int × String))) =
      l2.foldl (grantChatStep env now user (get_period_end now period_days))
        (stc, invc, errc) := by
    rw [List.foldl_append, List.foldl_cons, hfold1, hstepv]
  rw [htot] at hfold
  rw [hfold] at hF2
  dsimp only at hF2
  obtain ⟨h2ch, ⟨e1, h2ca⟩, ⟨e2, h2inv, h2invc⟩, ⟨e3, h2err, h2errc⟩, e4, h2au⟩ := hF2
  rw [hgr]
  refine ⟨?_, ?_, ?_, ?_⟩
  · show List.Sublist _ (log_audit stf { action := "GRANT_ACCESS", user_id := some user.id, ref := ref }).calls
    have hlc : (log_audit stf { action := "GRANT_ACCESS", user_id := some user.id, ref := ref }).calls = stf.calls := rfl
    rw [hlc, h2ca, hsca]
    exact (List.sublist_append_right sta.calls _).trans
      (List.sublist_append_left _ e1)
  · show (c, link) ∈ invf
    rw [h2inv, hsinv]
    simp
  · intro e he
    have he2 : e ∈ errf := he
    rw [h2err, hserr, haerr] at he2
    intro hec
    rcases List.mem_append.mp he2 with h | h
    · rcases List.mem_append.mp h with h | h
      · simp at h
      · exact hc1 (hec ▸ haerrc e h)
    · exact hc2 (hec ▸ h2errc e h)
  · show ({ action := "UNBAN_MEMBER_ERROR", telegram_user_id := some t, chat_id := some c } : AuditDoc) ∈
      (log_audit stf { action := "GRANT_ACCESS", user_id := some user.id, ref := ref }).audits
    have hla : (log_audit stf { action := "GRANT_ACCESS", user_id := some user.id, ref := ref }).audits = stf.audits ++ [{ action := "GRANT_ACCESS", user_id := some user.id, ref := ref }] := rfl
    rw [hla, h2au]
    exact List.mem_append_left _ (List.mem_append_left _ hsau)

/-- Already-linked buyer of the C10 witness. -/
def userW10 : UserDoc :=
  { id := 0, ext_user_id := "u", telegram_user_id := some 42,
    telegram_username := none, created_at := 0, updated_at := 0 }

/-- Invite-link channel of the C10 witness. -/
def chW10 : ChannelDoc :=
  { chat_id := -5, name := "ch", join_model := "invite_link",
    invite_ttl_seconds := none, invite_member_limit := none }

/-- Environment of the C10 witness: the remote unban raises, the invite
mint succeeds. -/
def envW10 : Env :=
  { invite_ttl_default := 3600, invite_limit_default := 1,
    createInvite := fun _ => CreateInviteOutcome.ok "LNK",
    revokeRaises := fun _ _ => false, approveRaises := fun _ _ => false,
    declineRaises := fun _ _ => false, banOk := fun _ _ => true,
    unbanResult := fun _ _ => none }

/-- State of the C10 witness. -/
def stW10 : St := { users := [userW10], channels := [chW10] }

/-- Witness for C10: granting 30 days on the single chat `-5` unbans the
linked account (only-if-banned) before minting the invite; the raised
unban does not fail the grant — the chat still gets its link. -/
theorem grant_access_unbans_before_invite_witness :
    List.Sublist
        [RemoteCall.unbanChatMember (-5) 42 true,
         RemoteCall.createChatInviteLink (-5) ((50 : Int) + ((chW10.invite_ttl_seconds.getD envW10.invite_ttl_default : Nat) : Int)) (chW10.invite_member_limit.getD envW10.invite_limit_default)]
        (grant_access envW10 50 stW10 "u" ([] ++ (-5) :: []) 30 none).1.calls ∧
      ((-5 : Int), "LNK") ∈
        (grant_access envW10 50 stW10 "u" ([] ++ (-5) :: []) 30 none).2.invites ∧
      (∀ e ∈ (grant_access envW10 50 stW10 "u" ([] ++ (-5) :: []) 30 none).2.errors,
        e.1 ≠ (-5 : Int)) ∧
      ({ action := "UNBAN_MEMBER_ERROR", telegram_user_id := some 42, chat_id := some (-5) } : AuditDoc) ∈
        (grant_access envW10 50 stW10 "u" ([] ++ (-5) :: []) 30 none).1.audits :=
  grant_access_unbans_before_invite envW10 50 stW10 "u" [] [] (-5) 30 none
    userW10 42 chW10 "LNK" (by decide) rfl (by decide) rfl rfl rfl
    (by decide) (by decide)
